import Mathlib

/-
Verification of the statistical estimation engine of method-eval-tools:
regression estimators (Deming, weighted Deming, Passing-Bablok), the
jackknife/bootstrap confidence-interval decorators, and the one- and
two-factor variance-component analyzers.

Shallow-embedding conventions:
* JavaScript numbers are modeled by the four-valued type JsNum over a
  linear ordered field: a finite value, positive infinity, negative
  infinity, or NaN.  Arithmetic on finite values is exact field
  arithmetic (no rounding or overflow); the sign of a floating-point
  zero is not tracked, so division of a nonzero finite value by zero
  yields the infinity whose sign is that of the numerator (the
  positive-zero convention).  None of the statements proved below
  depends on the sign of an infinity.
* The ANOVA stack is instantiated at the rationals, which makes it
  fully executable; the regression stack uses the reals because the
  algorithms use square roots and arc-tangents.
* Thrown JavaScript errors are modeled by Except; each error
  constructor corresponds to one throw site in the source.
* The external jstat quantile functions (normal.inv, studentt.inv,
  chisquare.inv) and, in the rational ANOVA stack, Math.sqrt are
  opaque to the program and are passed as explicit function
  parameters.
* Out-of-range array reads (undefined in JavaScript) are collapsed to
  NaN; every subsequent arithmetic use of undefined produces NaN, so
  the collapse is observationally accurate for the numeric fields the
  claims mention.
-/

set_option maxHeartbeats 1000000

open Real


/-- Four-valued model of a JavaScript number: a finite value of the
underlying ordered field, one of the two infinities, or NaN. -/
inductive JsNum (α : Type) where
  | num : α → JsNum α
  | pinf : JsNum α
  | ninf : JsNum α
  | nan : JsNum α
deriving DecidableEq, Repr

namespace JsNum

variable {α : Type} [LinearOrderedField α]

/-- JavaScript addition. -/
def add : JsNum α → JsNum α → JsNum α
  | nan, _ => nan
  | _, nan => nan
  | num a, num b => num (a + b)
  | num _, pinf => pinf
  | num _, ninf => ninf
  | pinf, num _ => pinf
  | ninf, num _ => ninf
  | pinf, pinf => pinf
  | ninf, ninf => ninf
  | pinf, ninf => nan
  | ninf, pinf => nan

/-- JavaScript negation. -/
def neg : JsNum α → JsNum α
  | num a => num (-a)
  | pinf => ninf
  | ninf => pinf
  | nan => nan

/-- JavaScript subtraction. -/
def sub (x y : JsNum α) : JsNum α := add x (neg y)

/-- JavaScript multiplication. -/
def mul : JsNum α → JsNum α → JsNum α
  | nan, _ => nan
  | _, nan => nan
  | num a, num b => num (a * b)
  | num a, pinf => if 0 < a then pinf else if a < 0 then ninf else nan
  | num a, ninf => if 0 < a then ninf else if a < 0 then pinf else nan
  | pinf, num b => if 0 < b then pinf else if b < 0 then ninf else nan
  | ninf, num b => if 0 < b then ninf else if b < 0 then pinf else nan
  | pinf, pinf => pinf
  | pinf, ninf => ninf
  | ninf, pinf => ninf
  | ninf, ninf => pinf

/-- JavaScript division (positive-zero convention for a zero divisor). -/
def div : JsNum α → JsNum α → JsNum α
  | nan, _ => nan
  | _, nan => nan
  | num a, num b =>
      if b = 0 then (if a = 0 then nan else if 0 < a then pinf else ninf)
      else num (a / b)
  | num _, pinf => num 0
  | num _, ninf => num 0
  | pinf, num b => if b < 0 then ninf else pinf
  | ninf, num b => if b < 0 then pinf else ninf
  | pinf, pinf => nan
  | pinf, ninf => nan
  | ninf, pinf => nan
  | ninf, ninf => nan

/-- JavaScript Math.abs. -/
def absJ : JsNum α → JsNum α
  | num a => num |a|
  | pinf => pinf
  | ninf => pinf
  | nan => nan

/-- JavaScript strict less-than comparison; any comparison involving
NaN is false. -/
def ltB : JsNum α → JsNum α → Bool
  | nan, _ => false
  | _, nan => false
  | num a, num b => decide (a < b)
  | num _, pinf => true
  | num _, ninf => false
  | pinf, num _ => false
  | ninf, num _ => true
  | pinf, pinf => false
  | ninf, ninf => false
  | ninf, pinf => true
  | pinf, ninf => false

/-- JavaScript Math.max of two values. -/
def maxJ : JsNum α → JsNum α → JsNum α
  | nan, _ => nan
  | _, nan => nan
  | num a, num b => num (max a b)
  | pinf, _ => pinf
  | _, pinf => pinf
  | ninf, x => x
  | x, ninf => x

/-- JavaScript Math.pow with exponent -2. -/
def powNeg2 : JsNum α → JsNum α
  | num a => if a = 0 then pinf else num (1 / (a * a))
  | pinf => num 0
  | ninf => num 0
  | nan => nan

/-- Sum of a list of JavaScript numbers, accumulated left to right
from 0 exactly as the source's += loops do. -/
def sumJ (l : List (JsNum α)) : JsNum α := l.foldl add (num 0)

/-- True exactly on finite values. -/
def finite : JsNum α → Bool
  | num _ => true
  | _ => false

/-- JavaScript Math.sqrt on the real-instantiated model. -/
noncomputable def sqrtJ : JsNum ℝ → JsNum ℝ
  | num a => if a < 0 then nan else num (Real.sqrt a)
  | pinf => pinf
  | ninf => nan
  | nan => nan

/-- JavaScript Math.tan on the real-instantiated model; the tangent of
a non-finite angle is NaN. -/
noncomputable def tanJ : JsNum ℝ → JsNum ℝ
  | num a => num (Real.tan a)
  | _ => nan

/-- Comparator order used to model Array.prototype.sort with the
numeric comparator (a, b) => a - b.  The relative order of NaN under
that comparator is implementation defined in JavaScript; this model
places NaN after every other value. -/
def cmpLe : JsNum α → JsNum α → Bool
  | _, nan => true
  | nan, _ => false
  | num a, num b => decide (a ≤ b)
  | num _, pinf => true
  | num _, ninf => false
  | pinf, num _ => false
  | ninf, num _ => true
  | pinf, pinf => true
  | ninf, ninf => true
  | ninf, pinf => true
  | pinf, ninf => false

end JsNum


/- Short aliases for the JsNum operations, used to keep the embedded
arithmetic readable. -/
abbrev jN {α : Type} (a : α) : JsNum α := JsNum.num a

abbrev jAdd {α : Type} [LinearOrderedField α] : JsNum α → JsNum α → JsNum α := JsNum.add

abbrev jSub {α : Type} [LinearOrderedField α] : JsNum α → JsNum α → JsNum α := JsNum.sub

abbrev jMul {α : Type} [LinearOrderedField α] : JsNum α → JsNum α → JsNum α := JsNum.mul

abbrev jDiv {α : Type} [LinearOrderedField α] : JsNum α → JsNum α → JsNum α := JsNum.div

abbrev jAbs {α : Type} [LinearOrderedField α] : JsNum α → JsNum α := JsNum.absJ

abbrev jMax {α : Type} [LinearOrderedField α] : JsNum α → JsNum α → JsNum α := JsNum.maxJ

abbrev jLt {α : Type} [LinearOrderedField α] : JsNum α → JsNum α → Bool := JsNum.ltB

abbrev jSum {α : Type} [LinearOrderedField α] : List (JsNum α) → JsNum α := JsNum.sumJ

noncomputable abbrev jSqrt : JsNum ℝ → JsNum ℝ := JsNum.sqrtJ

noncomputable abbrev jTan : JsNum ℝ → JsNum ℝ := JsNum.tanJ

abbrev jPowNeg2 {α : Type} [LinearOrderedField α] : JsNum α → JsNum α := JsNum.powNeg2

/-- jstat mean of a list: sum divided by length. -/
noncomputable def mean (l : List ℝ) : ℝ := l.sum / l.length

/-- devsq from the source: the sum of the squared deviations from the
mean, accumulated pointwise. -/
noncomputable def devsq (l : List ℝ) : ℝ := (l.map (fun v => (v - mean l) * (v - mean l))).sum

/-- The cross-deviation sum p from calculateDeming: the sum over the
paired points of (x i - mean x) * (y i - mean y). -/
noncomputable def crossDev (x y : List ℝ) : ℝ :=
  ((x.zip y).map (fun pr => (pr.1 - mean x) * (pr.2 - mean y))).sum

/-- Result record of a regression estimator (RegressionModel in the
source); confidence-limit fields are NaN when an estimator does not
compute them itself. -/
structure RegressionModel where
  slope : JsNum ℝ
  intercept : JsNum ℝ
  slopeLCL : JsNum ℝ
  slopeUCL : JsNum ℝ
  interceptLCL : JsNum ℝ
  interceptUCL : JsNum ℝ

/-- Validation failures thrown by the Deming-family estimators; each
constructor corresponds to one throw site of the source. -/
inductive InputValidationError where
  | lengthMismatch
  | errorRatioNotPositive
  | iterMaxNotPositive
  | thresholdNotPositive
  | negativeValue
deriving DecidableEq, Repr

namespace DemingRegression

/-- The validation block at the top of calculateDeming, in source
order: length check, error-ratio check, negative-value check. -/
noncomputable def validate (errorRatio : ℝ) (x y : List ℝ) :
    Option InputValidationError :=
  if x.length ≠ y.length ∨ x.length = 0 then some .lengthMismatch
  else if ¬ (0 < errorRatio) then some .errorRatioNotPositive
  else if (x.any fun v => decide (v < 0)) || (y.any fun v => decide (v < 0)) then
    some .negativeValue
  else none

/-- The arithmetic core of calculateDeming after validation.  All
intermediate quantities up to the closed-form slope are finite, so
they are computed in plain real arithmetic; the final division is the
only operation that can produce a non-finite result and is modeled
with the JavaScript division. -/
noncomputable def core (errorRatio : ℝ) (x y : List ℝ) : RegressionModel :=
  let lambda := errorRatio
  let mean_x := mean x
  let mean_y := mean y
  let u := devsq x
  let q := devsq y
  let p := crossDev x y
  let b1 := jDiv
    (jN (lambda * q - u + Real.sqrt ((u - lambda * q) ^ 2 + 4 * lambda * p ^ 2)))
    (jN (2 * lambda * p))
  let b0 := jSub (jN mean_y) (jMul b1 (jN mean_x))
  { slope := b1, intercept := b0, slopeLCL := .nan, slopeUCL := .nan,
    interceptLCL := .nan, interceptUCL := .nan }

/-- DemingRegression.calculate: validate, then run the closed form. -/
noncomputable def calculate (errorRatio : ℝ) (x y : List ℝ) :
    Except InputValidationError RegressionModel :=
  match validate errorRatio x y with
  | some e => .error e
  | none => .ok (core errorRatio x y)

end DemingRegression

namespace WeightedDemingRegression

/-- The validation block of calculateWeightedDeming, in source order:
length, error ratio, iteration cap, threshold, negative values. -/
noncomputable def validate (errorRatio : ℝ) (iterMax : ℕ) (threshold : ℝ)
    (x y : List ℝ) : Option InputValidationError :=
  if x.length ≠ y.length ∨ x.length = 0 then some .lengthMismatch
  else if ¬ (0 < errorRatio) then some .errorRatioNotPositive
  else if ¬ (0 < iterMax) then some .iterMaxNotPositive
  else if ¬ (0 < threshold) then some .thresholdNotPositive
  else if (x.any fun v => decide (v < 0)) || (y.any fun v => decide (v < 0)) then
    some .negativeValue
  else none

/-- A data point together with its weight for the current iterate. -/
structure WPoint where
  xv : ℝ
  yv : ℝ
  w : JsNum ℝ

/-- One body execution of the reweighting loop: computes the residuals,
projected points, weights, weighted means and weighted deviation sums
for the current iterate (b1, b0) and solves the Deming quadratic on
them, returning the next iterate (b_1, b_0). -/
noncomputable def step (lambda : ℝ) (x y : List ℝ) (b1 b0 : JsNum ℝ) :
    JsNum ℝ × JsNum ℝ :=
  let pts := x.zip y
  let per : List WPoint := pts.map (fun pr =>
    let di := jSub (jN pr.2) (jAdd b0 (jMul b1 (jN pr.1)))
    let xhi := jAdd (jN pr.1)
      (jDiv (jMul (jMul (jN lambda) b1) di)
            (jAdd (jN 1) (jMul (jMul (jN lambda) b1) b1)))
    let yhi := jSub (jN pr.2)
      (jDiv di (jAdd (jN 1) (jMul (jN lambda) (jMul b1 b1))))
    let wi := jPowNeg2 (jDiv (jAdd xhi (jMul (jN lambda) yhi)) (jN (1 + lambda)))
    { xv := pr.1, yv := pr.2, w := wi })
  let sumW := jSum (per.map (fun t => t.w))
  let wx := jDiv (jSum (per.map (fun t => jMul t.w (jN t.xv)))) sumW
  let wy := jDiv (jSum (per.map (fun t => jMul t.w (jN t.yv)))) sumW
  let wu := jSum (per.map (fun t =>
    jMul t.w (jMul (jSub (jN t.xv) wx) (jSub (jN t.xv) wx))))
  let wq := jSum (per.map (fun t =>
    jMul t.w (jMul (jSub (jN t.yv) wy) (jSub (jN t.yv) wy))))
  let wp := jSum (per.map (fun t =>
    jMul (jMul t.w (jSub (jN t.xv) wx)) (jSub (jN t.yv) wy)))
  let sd := jSub wu (jMul (jN lambda) wq)
  let b_1 := jDiv
    (jAdd (jSub (jMul (jN lambda) wq) wu)
          (jSqrt (jAdd (jMul sd sd) (jMul (jN (4 * lambda)) (jMul wp wp)))))
    (jMul (jN (2 * lambda)) wp)
  let b_0 := jSub wy (jMul b_1 wx)
  (b_1, b_0)

/-- Final state of the reweighting loop: last iterate, number of body
executions performed, and whether the no-convergence warning was
logged. -/
structure LoopOut where
  b1 : JsNum ℝ
  b0 : JsNum ℝ
  iterations : ℕ
  warned : Bool

/-- The while loop of calculateWeightedDeming.  The source loops while
iter <= iterMax with iter incremented at the top of the body, so the
body can execute up to iterMax + 1 times; rem is the number of body
executions still permitted (initially iterMax + 1) and iter is the
source's counter.  The warning is logged during the body execution
whose incremented counter equals iterMax.  On convergence the loop
breaks before assigning the new iterate, returning the previous one,
exactly as the source break does. -/
noncomputable def loop (lambda threshold : ℝ) (iterMax : ℕ) (x y : List ℝ) :
    JsNum ℝ → JsNum ℝ → ℕ → ℕ → Bool → LoopOut
  | b1, b0, 0, iter, warned =>
      { b1 := b1, b0 := b0, iterations := iter, warned := warned }
  | b1, b0, rem + 1, iter, warned =>
      let iterN := iter + 1
      let warnedN := warned || decide (iterN = iterMax)
      let s := step lambda x y b1 b0
      if jLt (jAbs (jSub b1 s.1)) (jN threshold) &&
         jLt (jAbs (jSub b0 s.2)) (jN threshold) then
        { b1 := b1, b0 := b0, iterations := iterN, warned := warnedN }
      else
        loop lambda threshold iterMax x y s.1 s.2 rem iterN warnedN

/-- Result of calculateWeightedDeming, instrumented with the iteration
count and the warning flag (the source logs the warning to the console
and returns only the model). -/
structure WDResult where
  model : RegressionModel
  iterations : ℕ
  warned : Bool

/-- WeightedDemingRegression.calculate: validate, seed the iterate from
the plain Deming closed form, then run the bounded reweighting loop. -/
noncomputable def calculate (errorRatio : ℝ) (iterMax : ℕ) (threshold : ℝ)
    (x y : List ℝ) : Except InputValidationError WDResult :=
  match validate errorRatio iterMax threshold x y with
  | some e => .error e
  | none =>
    let initial := DemingRegression.core errorRatio x y
    let out := loop errorRatio threshold iterMax x y
      initial.slope initial.intercept (iterMax + 1) 0 false
    .ok { model := { slope := out.b1, intercept := out.b0, slopeLCL := .nan,
                     slopeUCL := .nan, interceptLCL := .nan, interceptUCL := .nan },
          iterations := out.iterations, warned := out.warned }

end WeightedDemingRegression


/-- JavaScript Math.pow with exponent 2 applied to a JsNum value. -/
abbrev jSq {α : Type} [LinearOrderedField α] (v : JsNum α) : JsNum α := JsNum.mul v v

/-- Errors thrown by the precision-analysis classes: the constructor
length check and the balanced-design check of the nested ANOVA. -/
inductive AnovaError where
  | lengthMismatch
  | unbalancedDesign
deriving DecidableEq, Repr

/-- Append a value to the group of key k in an insertion-ordered
association list, creating the group at the end on first use: the
JavaScript dict[key].push pattern of the ANOVA constructors.
JavaScript objects enumerate integer-like keys first, but every
consumer below folds commutatively over the groups, so insertion order
is observationally faithful. -/
def addToGroup {κ : Type} [DecidableEq κ] (k : κ) (v : ℚ) :
    List (κ × List ℚ) → List (κ × List ℚ)
  | [] => [(k, [v])]
  | (k0, l) :: t =>
      if k0 = k then (k0, l ++ [v]) :: t else (k0, l) :: addToGroup k v t

/-- The factor-to-values dictionary built by OneFactorAnova's
constructor, processing the paired observations in order. -/
def buildDict {κ : Type} [DecidableEq κ] (ks : List κ) (vs : List ℚ) :
    List (κ × List ℚ) :=
  (ks.zip vs).foldl (fun d pr => addToGroup pr.1 pr.2 d) []

/-- The ANOVA table returned by OneFactorAnova.calculate. -/
structure OneFactorAnovaTable where
  mean : JsNum ℚ
  ssTotal : JsNum ℚ
  sst : JsNum ℚ
  sse : JsNum ℚ
  dfTotal : ℚ
  dfE : ℚ
  dfT : ℚ
  mst : JsNum ℚ
  mse : JsNum ℚ
  f : JsNum ℚ
  n : ℚ
  p : ℚ
  sn2 : ℚ
deriving DecidableEq

namespace OneFactorAnova

/-- OneFactorAnova: the constructor length check and grouping followed
by the one-way decomposition of calculate.  Group sizes are never zero
(groups are created nonempty), so the per-group divisions are exact
rational arithmetic; the divisions that can degenerate (grand mean,
corrected mean, mean squares) use the JavaScript division. -/
def calculate {κ : Type} [DecidableEq κ] (factorA : List κ) (values : List ℚ) :
    Except AnovaError OneFactorAnovaTable :=
  if factorA.length ≠ values.length then .error .lengthMismatch
  else
    let dict := buildDict factorA values
    let numGroups : ℚ := dict.length
    let totalObservations : ℚ := values.length
    let sumGroupSizesSquared : ℚ :=
      (dict.map (fun pr => ((pr.2.length : ℚ) * pr.2.length))).sum
    let sumAllValues : ℚ := values.sum
    let grandMean : JsNum ℚ := jDiv (jN sumAllValues) (jN totalObservations)
    let sumSquaredAllValues : ℚ := (values.map (fun v => v * v)).sum
    let correctedMean : JsNum ℚ :=
      jDiv (jN (sumAllValues * sumAllValues)) (jN totalObservations)
    let ssTotal : JsNum ℚ := jSub (jN sumSquaredAllValues) correctedMean
    let sstSum : ℚ :=
      (dict.map (fun pr => pr.2.sum * pr.2.sum / (pr.2.length : ℚ))).sum
    let sst : JsNum ℚ := jSub (jN sstSum) correctedMean
    let sse : JsNum ℚ := jSub ssTotal sst
    let mst : JsNum ℚ := jDiv sst (jN (numGroups - 1))
    let mse : JsNum ℚ := jDiv sse (jN (totalObservations - numGroups))
    let f : JsNum ℚ := jDiv mst mse
    .ok { mean := grandMean, ssTotal := ssTotal, sst := sst, sse := sse,
          dfTotal := totalObservations - 1,
          dfE := totalObservations - numGroups, dfT := numGroups - 1,
          mst := mst, mse := mse, f := f, n := totalObservations,
          p := numGroups, sn2 := sumGroupSizesSquared }

end OneFactorAnova


/-- The record returned by OneFactorVarianceAnalysis.calculate: the
spread ANOVA table (kept here as the field table) plus the variance
components and chi-square verification factors. -/
structure OneFactorVariance where
  table : OneFactorAnovaTable
  vE : JsNum ℚ
  vB : JsNum ℚ
  sE : JsNum ℚ
  cvE : JsNum ℚ
  sB : JsNum ℚ
  cvB : JsNum ℚ
  s_WL : JsNum ℚ
  cv_WL : JsNum ℚ
  dfWL : JsNum ℚ
  chisqRepeatability : JsNum ℚ
  chisqWL : JsNum ℚ
  fRepeatability : JsNum ℚ
  fWL : JsNum ℚ
deriving DecidableEq

namespace OneFactorVarianceAnalysis

/-- Body shared by the two observed revisions of
OneFactorVarianceAnalysis.calculate.  The external jstat chisquare.inv
and Math.sqrt are the parameters chisqInv (quantile probability and
degrees of freedom) and sqrtJQ.  useSqrtF selects the revision: true
for the revision whose verification factors are sqrt(chi2/df), false
for the revision using chi2/df directly; everything else is identical
between the revisions. -/
def calculateWith (sqrtJQ : JsNum ℚ → JsNum ℚ)
    (chisqInv : JsNum ℚ → JsNum ℚ → JsNum ℚ) (useSqrtF : Bool)
    {κ : Type} [DecidableEq κ] (factorA : List κ) (values : List ℚ)
    (numLevels : ℚ) (alpha : ℚ) : Except AnovaError OneFactorVariance :=
  match OneFactorAnova.calculate factorA values with
  | .error e => .error e
  | .ok anova =>
    let vE := anova.mse
    let sE := sqrtJQ vE
    let cvE := jDiv sE anova.mean
    let n0 := jDiv (jSub (jN anova.n) (jDiv (jN anova.sn2) (jN anova.n)))
      (jN (anova.p - 1))
    let vB := jMax (jN 0) (jDiv (jSub anova.mst anova.mse) n0)
    let sB := sqrtJQ vB
    let cvB := jDiv sB anova.mean
    let s_WL := sqrtJQ (jAdd vE vB)
    let cv_WL := jDiv s_WL anova.mean
    let alpha1 := jDiv (jN 1) n0
    let alpha2 := jSub (jN 1) alpha1
    let numer := jSq (jAdd (jMul alpha1 anova.mst) (jMul alpha2 anova.mse))
    let den1 := jDiv (jSq (jMul alpha1 anova.mst)) (jN anova.dfT)
    let den2 := jDiv (jSq (jMul alpha2 anova.mse)) (jN anova.dfE)
    let dfWL := jDiv numer (jAdd den1 den2)
    let prob := jSub (jN 1) (jDiv (jN alpha) (jN numLevels))
    let chisqRepeatability := chisqInv prob (jN anova.dfE)
    let chisqWL := chisqInv prob dfWL
    let fRepeatability :=
      if useSqrtF then sqrtJQ (jDiv chisqRepeatability (jN anova.dfE))
      else jDiv chisqRepeatability (jN anova.dfE)
    let fWL := if useSqrtF then sqrtJQ (jDiv chisqWL dfWL) else jDiv chisqWL dfWL
    .ok { table := anova, vE := vE, vB := vB, sE := sE, cvE := cvE, sB := sB,
          cvB := cvB, s_WL := s_WL, cv_WL := cv_WL, dfWL := dfWL,
          chisqRepeatability := chisqRepeatability, chisqWL := chisqWL,
          fRepeatability := fRepeatability, fWL := fWL }

/-- The revision of OneFactorVarianceAnalysis.calculate whose
verification factors are sqrt(chi2 / df). -/
def calculateA (sqrtJQ : JsNum ℚ → JsNum ℚ)
    (chisqInv : JsNum ℚ → JsNum ℚ → JsNum ℚ) {κ : Type} [DecidableEq κ]
    (factorA : List κ) (values : List ℚ) (numLevels : ℚ) (alpha : ℚ) :
    Except AnovaError OneFactorVariance :=
  calculateWith sqrtJQ chisqInv true factorA values numLevels alpha

/-- The revision of OneFactorVarianceAnalysis.calculate whose
verification factors are chi2 / df without the square root. -/
def calculateB (sqrtJQ : JsNum ℚ → JsNum ℚ)
    (chisqInv : JsNum ℚ → JsNum ℚ → JsNum ℚ) {κ : Type} [DecidableEq κ]
    (factorA : List κ) (values : List ℚ) (numLevels : ℚ) (alpha : ℚ) :
    Except AnovaError OneFactorVariance :=
  calculateWith sqrtJQ chisqInv false factorA values numLevels alpha

/-- getUVLRepeatability of the sqrt revision: the claimed CV scaled by
the repeatability verification factor (the calculation is pure, so the
isCalculated caching of the source is invisible). -/
def getUVLRepeatabilityA (sqrtJQ : JsNum ℚ → JsNum ℚ)
    (chisqInv : JsNum ℚ → JsNum ℚ → JsNum ℚ) {κ : Type} [DecidableEq κ]
    (factorA : List κ) (values : List ℚ) (numLevels : ℚ) (alpha : ℚ)
    (cvClaim : ℚ) : Except AnovaError (JsNum ℚ) :=
  match calculateA sqrtJQ chisqInv factorA values numLevels alpha with
  | .error e => .error e
  | .ok r => .ok (jMul (jN cvClaim) r.fRepeatability)

/-- getUVLRepeatability of the no-sqrt revision. -/
def getUVLRepeatabilityB (sqrtJQ : JsNum ℚ → JsNum ℚ)
    (chisqInv : JsNum ℚ → JsNum ℚ → JsNum ℚ) {κ : Type} [DecidableEq κ]
    (factorA : List κ) (values : List ℚ) (numLevels : ℚ) (alpha : ℚ)
    (cvClaim : ℚ) : Except AnovaError (JsNum ℚ) :=
  match calculateB sqrtJQ chisqInv factorA values numLevels alpha with
  | .error e => .error e
  | .ok r => .ok (jMul (jN cvClaim) r.fRepeatability)

/-- getUVLWL of the sqrt revision. -/
def getUVLWLA (sqrtJQ : JsNum ℚ → JsNum ℚ)
    (chisqInv : JsNum ℚ → JsNum ℚ → JsNum ℚ) {κ : Type} [DecidableEq κ]
    (factorA : List κ) (values : List ℚ) (numLevels : ℚ) (alpha : ℚ)
    (cvClaim : ℚ) : Except AnovaError (JsNum ℚ) :=
  match calculateA sqrtJQ chisqInv factorA values numLevels alpha with
  | .error e => .error e
  | .ok r => .ok (jMul (jN cvClaim) r.fWL)

/-- getUVLWL of the no-sqrt revision. -/
def getUVLWLB (sqrtJQ : JsNum ℚ → JsNum ℚ)
    (chisqInv : JsNum ℚ → JsNum ℚ → JsNum ℚ) {κ : Type} [DecidableEq κ]
    (factorA : List κ) (values : List ℚ) (numLevels : ℚ) (alpha : ℚ)
    (cvClaim : ℚ) : Except AnovaError (JsNum ℚ) :=
  match calculateB sqrtJQ chisqInv factorA values numLevels alpha with
  | .error e => .error e
  | .ok r => .ok (jMul (jN cvClaim) r.fWL)

end OneFactorVarianceAnalysis


/-- Append a value to the nested day/run dictionary of
TwoFactorNestedAnova's constructor: find or create the day entry, then
push into its run group. -/
def addToGroup2 {κA κB : Type} [DecidableEq κA] [DecidableEq κB]
    (ka : κA) (kb : κB) (v : ℚ) :
    List (κA × List (κB × List ℚ)) → List (κA × List (κB × List ℚ))
  | [] => [(ka, [(kb, [v])])]
  | (k0, runs) :: t =>
      if k0 = ka then (k0, addToGroup kb v runs) :: t
      else (k0, runs) :: addToGroup2 ka kb v t

/-- The nested day-to-run-to-values dictionary built by the
TwoFactorNestedAnova constructor, processing observations in order. -/
def buildNestedDict {κA κB : Type} [DecidableEq κA] [DecidableEq κB]
    (fa : List κA) (fb : List κB) (vs : List ℚ) :
    List (κA × List (κB × List ℚ)) :=
  ((fa.zip fb).zip vs).foldl (fun d pr => addToGroup2 pr.1.1 pr.1.2 pr.2 d) []

/-- Constructor state of TwoFactorNestedAnova: the two dictionaries,
the derived design counts and the grand mean. -/
structure TwoFactorNestedState (κA κB : Type) where
  dictA : List (κA × List (κB × List ℚ))
  dictB : List (κB × List ℚ)
  numFactorA : ℕ
  numFactorB : ℕ
  numReps : ℕ
  grandMean : JsNum ℚ
  values : List ℚ

/-- The ANOVA table returned by TwoFactorNestedAnova.calculate. -/
structure TwoFactorNestedAnovaTable where
  mean : JsNum ℚ
  sst : JsNum ℚ
  ssa : JsNum ℚ
  ssb : JsNum ℚ
  sse : JsNum ℚ
  dfT : ℚ
  dfA : ℚ
  dfB : ℚ
  dfE : ℚ
  msa : JsNum ℚ
  msb : JsNum ℚ
  mse : JsNum ℚ
  fA : JsNum ℚ
  fB : JsNum ℚ
  n : ℕ
  nA : ℕ
  nB : ℕ
  nE : ℕ
deriving DecidableEq

namespace TwoFactorNestedAnova

/-- The maximum number of runs in any day, as accumulated by the
constructor loop. -/
def maxRuns {κA κB : Type} (dictA : List (κA × List (κB × List ℚ))) : ℕ :=
  dictA.foldl (fun m d => max m d.2.length) 0

/-- The maximum cell size over all run cells, as accumulated by the
constructor's nested loop. -/
def maxReps {κA κB : Type} (dictA : List (κA × List (κB × List ℚ))) : ℕ :=
  dictA.foldl (fun m d => d.2.foldl (fun m2 c => max m2 c.2.length) m) 0

/-- The TwoFactorNestedAnova constructor: length check, dictionary
construction, derived counts (number of days, maximum number of runs
per day, maximum cell size) and the grand mean. -/
def mkState {κA κB : Type} [DecidableEq κA] [DecidableEq κB]
    (factorA : List κA) (factorB : List κB) (values : List ℚ) :
    Except AnovaError (TwoFactorNestedState κA κB) :=
  if factorA.length ≠ factorB.length ∨ factorA.length ≠ values.length then
    .error .lengthMismatch
  else
    let dictA := buildNestedDict factorA factorB values
    .ok { dictA := dictA
          dictB := buildDict factorB values
          numFactorA := dictA.length
          numFactorB := maxRuns dictA
          numReps := maxReps dictA
          grandMean := jDiv (jN values.sum) (jN values.length)
          values := values }

/-- Every run cell of the nested dictionary, in day-major order. -/
def allCells {κA κB : Type} (dictA : List (κA × List (κB × List ℚ))) :
    List (κB × List ℚ) :=
  dictA.flatMap (fun d => d.2)

/-- The jstat mean of a cell, as used inside calculateSSE and
calculateSSB. -/
def cellMean (c : List ℚ) : JsNum ℚ := jDiv (jN c.sum) (jN c.length)

/-- calculateSST: the total sum of squared deviations from the grand
mean, accumulated over the observations. -/
def sstOf (values : List ℚ) (grandMean : JsNum ℚ) : JsNum ℚ :=
  jSum (values.map (fun v =>
    jMul (jSub (jN v) grandMean) (jSub (jN v) grandMean)))

/-- calculateSSE: within-cell squared deviations from each cell's own
mean, accumulated cell by cell. -/
def sseOf {κA κB : Type} (dictA : List (κA × List (κB × List ℚ))) : JsNum ℚ :=
  jSum ((allCells dictA).flatMap (fun c =>
    c.2.map (fun v => jMul (jSub (jN v) (cellMean c.2)) (jSub (jN v) (cellMean c.2)))))

/-- The error degrees of freedom accumulated by calculateSSE: cell
size minus one for every cell with more than one observation. -/
def dfEOf {κA κB : Type} (dictA : List (κA × List (κB × List ℚ))) : ℚ :=
  ((allCells dictA).map (fun c =>
    if 1 < c.2.length then (c.2.length : ℚ) - 1 else 0)).sum

/-- calculateSSA: between-day squared deviations of the day means from
the grand mean, weighted by the day sizes. -/
def ssaOf {κA κB : Type} (dictA : List (κA × List (κB × List ℚ)))
    (grandMean : JsNum ℚ) : JsNum ℚ :=
  jSum (dictA.map (fun d =>
    let gvals := (d.2.map (fun c => c.2)).flatten
    let gmean := jDiv (jN gvals.sum) (jN gvals.length)
    jMul (jN (gvals.length : ℚ))
      (jMul (jSub gmean grandMean) (jSub gmean grandMean))))

/-- The between-run degrees of freedom accumulated by calculateSSB:
the number of runs minus one summed over the days (the alternative SSB
value computed there is discarded by calculate and is not modeled). -/
def dfBOf {κA κB : Type} (dictA : List (κA × List (κB × List ℚ))) : ℚ :=
  (dictA.map (fun d =>
    if 0 < d.2.length then (d.2.length : ℚ) - 1 else 0)).sum

/-- TwoFactorNestedAnova.calculate: the balanced-design check comes
first, before any sum-of-squares computation; SSB is derived as
SST - SSA - SSE. -/
def calcFromState {κA κB : Type} (st : TwoFactorNestedState κA κB) :
    Except AnovaError TwoFactorNestedAnovaTable :=
  if st.numFactorA * st.numFactorB * st.numReps ≠ st.values.length then
    .error .unbalancedDesign
  else
    let sst := sstOf st.values st.grandMean
    let ssa := ssaOf st.dictA st.grandMean
    let sse := sseOf st.dictA
    let dfT : ℚ := (st.values.length : ℚ) - 1
    let dfA : ℚ := (st.dictA.length : ℚ) - 1
    let dfB := dfBOf st.dictA
    let dfE := dfEOf st.dictA
    let ssb := jSub (jSub sst ssa) sse
    let msa := jDiv ssa (jN dfA)
    let msb := jDiv ssb (jN dfB)
    let mse := jDiv sse (jN dfE)
    let fA := jDiv msa mse
    let fB := jDiv msb mse
    .ok { mean := st.grandMean, sst := sst, ssa := ssa, ssb := ssb, sse := sse,
          dfT := dfT, dfA := dfA, dfB := dfB, dfE := dfE,
          msa := msa, msb := msb, mse := mse, fA := fA, fB := fB,
          n := st.values.length, nA := st.numFactorA, nB := st.numFactorB,
          nE := st.numReps }

/-- Constructor plus calculate. -/
def calculate {κA κB : Type} [DecidableEq κA] [DecidableEq κB]
    (factorA : List κA) (factorB : List κB) (values : List ℚ) :
    Except AnovaError TwoFactorNestedAnovaTable :=
  match mkState factorA factorB values with
  | .error e => .error e
  | .ok st => calcFromState st

end TwoFactorNestedAnova


/-- The record returned by TwoFactorVarianceAnalysis.calculate: the
spread nested ANOVA table plus variance components, Satterthwaite
degrees of freedom and chi-square confidence limits. -/
structure TwoFactorVariance where
  table : TwoFactorNestedAnovaTable
  vT : JsNum ℚ
  vA : JsNum ℚ
  vB : JsNum ℚ
  vE : JsNum ℚ
  sWL : JsNum ℚ
  sA : JsNum ℚ
  sB : JsNum ℚ
  sE : JsNum ℚ
  cvWL : JsNum ℚ
  cvA : JsNum ℚ
  cvB : JsNum ℚ
  cvE : JsNum ℚ
  dfWL : JsNum ℚ
  sWL_LCL : JsNum ℚ
  sWL_UCL : JsNum ℚ
  sE_LCL : JsNum ℚ
  sE_UCL : JsNum ℚ
  cvWL_LCL : JsNum ℚ
  cvWL_UCL : JsNum ℚ
  cvE_LCL : JsNum ℚ
  cvE_UCL : JsNum ℚ
deriving DecidableEq

namespace TwoFactorVarianceAnalysis

/-- getUpperConfidenceLimit: sd * sqrt(df / chisquare.inv(alpha/2, df)). -/
def getUpperConfidenceLimit (sqrtJQ : JsNum ℚ → JsNum ℚ)
    (chisqInv : JsNum ℚ → JsNum ℚ → JsNum ℚ)
    (sd df : JsNum ℚ) (alpha : ℚ) : JsNum ℚ :=
  jMul sd (sqrtJQ (jDiv df (chisqInv (jN (alpha / 2)) df)))

/-- getLowerConfidenceLimit: sd * sqrt(df / chisquare.inv(1 - alpha/2, df)). -/
def getLowerConfidenceLimit (sqrtJQ : JsNum ℚ → JsNum ℚ)
    (chisqInv : JsNum ℚ → JsNum ℚ → JsNum ℚ)
    (sd df : JsNum ℚ) (alpha : ℚ) : JsNum ℚ :=
  jMul sd (sqrtJQ (jDiv df (chisqInv (jN (1 - alpha / 2)) df)))

/-- TwoFactorVarianceAnalysis.calculate, the revision built on the
nested ANOVA: runs the nested table, clamps the variance components at
zero, and derives the Satterthwaite degrees of freedom and chi-square
confidence limits.  sqrtJQ and chisqInv model the external Math.sqrt
and jstat chisquare.inv. -/
def calculate (sqrtJQ : JsNum ℚ → JsNum ℚ)
    (chisqInv : JsNum ℚ → JsNum ℚ → JsNum ℚ)
    {κA κB : Type} [DecidableEq κA] [DecidableEq κB]
    (factorA : List κA) (factorB : List κB) (values : List ℚ) (alpha : ℚ) :
    Except AnovaError TwoFactorVariance :=
  match TwoFactorNestedAnova.calculate factorA factorB values with
  | .error e => .error e
  | .ok anova =>
    let vA := jMax (jN 0)
      (jDiv (jSub anova.msa anova.msb) (jN ((anova.nB : ℚ) * (anova.nE : ℚ))))
    let vE := anova.mse
    let vB := jMax (jN 0) (jDiv (jSub anova.msb anova.mse) (jN (anova.nE : ℚ)))
    let vT := jAdd (jAdd vA vB) vE
    let sA := sqrtJQ vA
    let sB := sqrtJQ vB
    let sE := sqrtJQ vE
    let sT := sqrtJQ vT
    let cvA := jDiv sA anova.mean
    let cvB := jDiv sB anova.mean
    let cvE := jDiv sE anova.mean
    let cvT := jDiv sT anova.mean
    let alphaA := jDiv (jN (anova.nA : ℚ)) (jN ((anova.n : ℚ) - 1))
    let alphaAB := jDiv (jN (((anova.nB : ℚ) - 1) * (anova.nA : ℚ)))
      (jN ((anova.n : ℚ) - 1))
    let alphaE := jDiv (jN ((anova.n : ℚ) - (anova.nA : ℚ) * (anova.nB : ℚ)))
      (jN ((anova.n : ℚ) - 1))
    let numer := jSq (jAdd (jAdd (jMul alphaA anova.msa) (jMul alphaAB anova.msb))
      (jMul alphaE anova.mse))
    let den1 := jDiv (jSq (jMul alphaA anova.msa)) (jN anova.dfA)
    let den2 := jDiv (jSq (jMul alphaAB anova.msb)) (jN anova.dfB)
    let den3 := jDiv (jSq (jMul alphaE anova.mse)) (jN anova.dfE)
    let dfWL := jDiv numer (jAdd (jAdd den1 den2) den3)
    let sWL_UCL := getUpperConfidenceLimit sqrtJQ chisqInv sT dfWL alpha
    let sWL_LCL := getLowerConfidenceLimit sqrtJQ chisqInv sT dfWL alpha
    let sE_UCL := getUpperConfidenceLimit sqrtJQ chisqInv sE (jN anova.dfE) alpha
    let sE_LCL := getLowerConfidenceLimit sqrtJQ chisqInv sE (jN anova.dfE) alpha
    let cvWL_UCL := jDiv sWL_UCL anova.mean
    let cvWL_LCL := jDiv sWL_LCL anova.mean
    let cvE_UCL := jDiv sE_UCL anova.mean
    let cvE_LCL := jDiv sE_LCL anova.mean
    .ok { table := anova, vT := vT, vA := vA, vB := vB, vE := vE,
          sWL := sT, sA := sA, sB := sB, sE := sE,
          cvWL := cvT, cvA := cvA, cvB := cvB, cvE := cvE, dfWL := dfWL,
          sWL_LCL := sWL_LCL, sWL_UCL := sWL_UCL,
          sE_LCL := sE_LCL, sE_UCL := sE_UCL,
          cvWL_LCL := cvWL_LCL, cvWL_UCL := cvWL_UCL,
          cvE_LCL := cvE_LCL, cvE_UCL := cvE_UCL }

end TwoFactorVarianceAnalysis

namespace PassingBablokRegression

/-- calcDiff: the relative-tolerance difference copied from the mcr
package; differences below eps = 1e-12 of the mean magnitude collapse
to exactly zero. -/
noncomputable def calcDiff (a b : ℝ) : ℝ :=
  if |a - b| < (1 / 10 ^ 12) * ((|a| + |b|) / 2) then 0 else a - b

/-- One entry of the angle matrix at position j*nrows + k: 500 for the
reciprocal half (k < j), the arctangent of the pairwise slope when the
x-difference is nonzero, a vertical angle of plus or minus pi/2 when
only the y-difference is nonzero, and 500 for colocated points. -/
noncomputable def angleEntry (pc : Bool) (x y : List ℝ) (j k : ℕ) : ℝ :=
  if k < j then 500
  else
    let dx := calcDiff (x.getD k 0) (x.getD j 0)
    let dy := calcDiff (y.getD k 0) (y.getD j 0)
    if dx ≠ 0 then Real.arctan (dy / dx)
    else if dy ≠ 0 then (if pc then π / 2 else -(π / 2)) else 500

/-- The full angle matrix in index order j*nrows + k (j-major), exactly
the order in which calcAngleMatrix fills its flat array. -/
noncomputable def matrixOf (pc : Bool) (x y : List ℝ) : List ℝ :=
  (List.range y.length).flatMap
    (fun j => (List.range x.length).map (fun k => angleEntry pc x y j k))

/-- nAllItems: the counter increments exactly on the entries stored as
genuine angles, which are exactly the entries below the 500 sentinel. -/
noncomputable def nAllOf (m : List ℝ) : ℕ :=
  m.countP (fun e => decide (e < 500))

/-- nNeg: angles at or below -pi/4 (the nested counter structure of the
source reduces to these two predicates). -/
noncomputable def nNegOf (m : List ℝ) : ℕ :=
  m.countP (fun e => decide (e < 500 ∧ e ≤ -(π / 4)))

/-- nNeg2: angles strictly below -pi/4. -/
noncomputable def nNeg2Of (m : List ℝ) : ℕ :=
  m.countP (fun e => decide (e < 500 ∧ e < -(π / 4)))

/-- nPos: angles at or above pi/4. -/
noncomputable def nPosOf (m : List ℝ) : ℕ :=
  m.countP (fun e => decide (e < 500 ∧ π / 4 ≤ e))

/-- nPos2: angles strictly above pi/4. -/
noncomputable def nPos2Of (m : List ℝ) : ℕ :=
  m.countP (fun e => decide (e < 500 ∧ π / 4 < e))

/-- Ordered insertion of one value into a sorted list. -/
noncomputable def insertA (a : ℝ) : List ℝ → List ℝ
  | [] => [a]
  | b :: t => if a ≤ b then a :: b :: t else b :: insertA a t

/-- Array.prototype.sort with the numeric comparator (a, b) => a - b,
modeled as insertion sort: on real-valued entries any comparison sort
computes the same ascending list. -/
noncomputable def sortAsc (l : List ℝ) : List ℝ := l.foldr insertA []

/-- JavaScript array indexing: an out-of-range index reads undefined,
which becomes NaN in the subsequent arithmetic. -/
def jsGet (l : List ℝ) (i : ℤ) : JsNum ℝ :=
  if h : 0 ≤ i ∧ i.toNat < l.length then JsNum.num (l.get ⟨i.toNat, h.2⟩)
  else JsNum.nan

/-- The array of shifted values y[i] - slope * x[i] filled by the
intercept loop. -/
noncomputable def shiftArr (x y : List ℝ) (s : ℝ) : List ℝ :=
  (x.zip y).map (fun p => p.2 - s * p.1)

/-- The median selection applied to each intercept array: half =
floor(n/2) - 1; for even n the average of the entries at half and
half+1, for odd n the entry at half itself. -/
noncomputable def medianLowJ (n : ℕ) (arr : List ℝ) : JsNum ℝ :=
  let srt := sortAsc arr
  let half : ℤ := Int.fdiv (n : ℤ) 2 - 1
  if n % 2 = 0 then jDiv (jAdd (jsGet srt half) (jsGet srt (half + 1))) (jN 2)
  else jsGet srt half

/-- The intercept computation for one slope value.  When the slope is
NaN every entry of the shifted array is NaN, any comparator-based sort
of an all-NaN array is an all-NaN array, and both median branches
produce NaN; the match returns that NaN directly.  Infinite slopes
cannot reach this point (jTan maps non-finite angles to NaN and finite
angles to finite tangents). -/
noncomputable def interceptOf (x y : List ℝ) (slope : JsNum ℝ) : JsNum ℝ :=
  match slope with
  | .num s => medianLowJ x.length (shiftArr x y s)
  | _ => .nan

/-- calculatePaBa.  z stands for the external jstat call
normal.inv(1 - alpha/2, 0, 1); integer quantities follow the source's
Math.floor / Math.round (JavaScript % against 2 agrees with
divisibility for negative operands, so the parity tests use emod).
The slope is tan of the selected matrix angle. -/
noncomputable def calculatePaBa (pc : Bool) (z : ℝ) (x y : List ℝ) :
    RegressionModel :=
  let n := x.length
  let mraw := matrixOf pc x y
  let nAll : ℤ := nAllOf mraw
  let nNeg : ℤ := nNegOf mraw
  let nNeg2 : ℤ := nNeg2Of mraw
  let nPos : ℤ := nPosOf mraw
  let nPos2 : ℤ := nPos2Of mraw
  let offset : ℤ := if pc then nNeg + nNeg2 else -(nPos + nPos2)
  let nValIndex2 : ℤ := nAll + offset
  let m := sortAsc mraw
  let half : ℤ := Int.fdiv (nValIndex2 + 1) 2
  let slope : JsNum ℝ := jTan
    (if nValIndex2 % 2 = 0 then
      jDiv (jAdd (jsGet m (half - 1)) (jsGet m half)) (jN 2)
    else jsGet m (half - 1))
  let t : ℝ := (n : ℝ) * ((n : ℝ) - 1) * (2 * (n : ℝ) + 5)
  let dConf : ℤ := ⌊z * Real.sqrt (t / 18) + 1 / 2⌋
  let ml : ℤ := nAll - dConf + offset
  let mlIdx : ℤ := Int.fdiv (ml + 1) 2
  let lowestIdx : ℤ :=
    if pc then 2 * (nNeg - nNeg2) + 1 else 2 * (nPos - nPos2) + 1
  let slopeL : JsNum ℝ :=
    if lowestIdx ≤ mlIdx then
      jTan (if ml % 2 = 0 then
          jDiv (jAdd (jsGet m (mlIdx - 1)) (jsGet m mlIdx)) (jN 2)
        else jsGet m (mlIdx - 1))
    else JsNum.nan
  let m2 : ℤ := nAll + dConf + offset
  let m2Idx : ℤ := Int.fdiv (m2 + 1) 2
  let slopeU : JsNum ℝ :=
    if m2Idx ≤ nAll then
      jTan (if m2 % 2 = 0 then
          jDiv (jAdd (jsGet m (m2Idx - 1)) (jsGet m m2Idx)) (jN 2)
        else jsGet m (m2Idx - 1))
    else JsNum.nan
  { slope := slope
    intercept := interceptOf x y slope
    slopeLCL := slopeL
    slopeUCL := slopeU
    interceptLCL := interceptOf x y slopeU
    interceptUCL := interceptOf x y slopeL }

/-- PassingBablokRegression.calculate simply delegates to
calculatePaBa: there is no validation step of any kind. -/
noncomputable def calculate (pc : Bool) (z : ℝ) (x y : List ℝ) :
    RegressionModel :=
  calculatePaBa pc z x y

/-- Spec-modelled median (written from the specification's words, for
comparison with the code): the middle order statistic for odd length,
the average of the two middle order statistics for even length. -/
noncomputable def medianSpec (l : List ℝ) : ℝ :=
  let s := sortAsc l
  if l.length % 2 = 0 then
    (s.getD (l.length / 2 - 1) 0 + s.getD (l.length / 2) 0) / 2
  else s.getD (l.length / 2) 0

end PassingBablokRegression


/-- The interface returned by both confidence-interval procedures. -/
structure ConfidenceIntervalModel where
  slope : JsNum ℝ
  intercept : JsNum ℝ
  slopeSE : JsNum ℝ
  interceptSE : JsNum ℝ
  slopeLCL : JsNum ℝ
  slopeUCL : JsNum ℝ
  interceptLCL : JsNum ℝ
  interceptUCL : JsNum ℝ

namespace JackknifeConfidenceInterval

/-- The jstat mean: sum over length (NaN on the empty array through
0/0). -/
noncomputable def meanJ (l : List (JsNum ℝ)) : JsNum ℝ :=
  jDiv (jSum l) (jN (l.length : ℝ))

/-- The jstat sample standard deviation stdev(arr, true):
sqrt(sum of squared deviations from the mean over (n - 1)). -/
noncomputable def stdevS (l : List (JsNum ℝ)) : JsNum ℝ :=
  jSqrt (jDiv (jSum (l.map (fun v => jSq (jSub v (meanJ l)))))
    (jN ((l.length : ℝ) - 1)))

/-- linnetSE: pseudo-values d_i = n*b_global - (n-1)*b_jack_i with n
the length of the jackknife array, then stdev(d, true)/Math.sqrt(n). -/
noncomputable def linnetSE (bjack : List (JsNum ℝ)) (bglobal : JsNum ℝ) :
    JsNum ℝ :=
  let n := bjack.length
  let d := bjack.map
    (fun b => jSub (jMul (jN (n : ℝ)) bglobal) (jMul (jN ((n : ℝ) - 1)) b))
  jDiv (stdevS d) (jN (Real.sqrt (n : ℝ)))

/-- JackknifeConfidenceInterval.calculate.  est is the wrapped
regression (slope and intercept of estimator.calculate), tInv the
external jstat studentt.inv with its probability and (natural) degrees
of freedom.  The leave-one-out loop that copies x[j] for j < i and
x[j] into slot j-1 for j > i builds exactly the list with index i
erased.  size = n - 1 in natural subtraction agrees with the source
for n = 0 as well: both sides then take the throw branch. -/
noncomputable def calculate (est : List ℝ → List ℝ → JsNum ℝ × JsNum ℝ)
    (tInv : ℝ → ℕ → ℝ) (alpha : ℝ) (x y : List ℝ) :
    Except String ConfidenceIntervalModel :=
  let n := x.length
  let size := n - 1
  if size ≤ 1 then .error "Sample size must be greater than 2"
  else
    let g := est x y
    let b1s := (List.range n).map (fun i => (est (x.eraseIdx i) (y.eraseIdx i)).1)
    let b0s := (List.range n).map (fun i => (est (x.eraseIdx i) (y.eraseIdx i)).2)
    let se1 := linnetSE b1s g.1
    let se0 := linnetSE b0s g.2
    let z := jN (tInv (1 - alpha / 2) (size - 1))
    .ok { slope := g.1, intercept := g.2, slopeSE := se1, interceptSE := se0,
          slopeLCL := jSub g.1 (jMul z se1), slopeUCL := jAdd g.1 (jMul z se1),
          interceptLCL := jSub g.2 (jMul z se0),
          interceptUCL := jAdd g.2 (jMul z se0) }

/-- Spec-modelled standard error (written from the specification's
words, for comparison with the code): pseudo-values
d_i = n*b_global - (n-1)*b_i over the n leave-one-out estimates,
SE = sampleStdev(d)/sqrt(n), with n the number of data points. -/
noncomputable def linnetSESpec (bs : List (JsNum ℝ)) (bg : JsNum ℝ)
    (n : ℕ) : JsNum ℝ :=
  jDiv (stdevS (bs.map
      (fun b => jSub (jMul (jN (n : ℝ)) bg) (jMul (jN ((n : ℝ) - 1)) b))))
    (jN (Real.sqrt (n : ℝ)))

end JackknifeConfidenceInterval

namespace BootstrapConfidenceInterval

/-- The resampling index for draw j of bootstrap iteration i:
Math.floor(random * n) with the random stream given by the oracle r. -/
noncomputable def bootIdx (r : ℕ → ℕ → ℝ) (n : ℕ) (i j : ℕ) : ℕ :=
  Int.toNat ⌊r i j * (n : ℝ)⌋

/-- The resampled x array of iteration i (the loop runs over x.length
positions; an out-of-range index from a random value outside [0, 1)
reads the JavaScript undefined, modeled by the getD default). -/
noncomputable def bootSampleX (r : ℕ → ℕ → ℝ) (x : List ℝ) (i : ℕ) :
    List ℝ :=
  (List.range x.length).map (fun j => x.getD (bootIdx r x.length i j) 0)

/-- The resampled y array of iteration i: the same indices as the x
array, with the loop bound still x.length. -/
noncomputable def bootSampleY (r : ℕ → ℕ → ℝ) (x y : List ℝ) (i : ℕ) :
    List ℝ :=
  (List.range x.length).map (fun j => y.getD (bootIdx r x.length i j) 0)

/-- The B resampled slopes, in iteration order. -/
noncomputable def resampleSlopes (est : List ℝ → List ℝ → ℝ × ℝ)
    (r : ℕ → ℕ → ℝ) (B : ℕ) (x y : List ℝ) : List ℝ :=
  (List.range B).map (fun i => (est (bootSampleX r x i) (bootSampleY r x y i)).1)

/-- The B resampled intercepts, in iteration order. -/
noncomputable def resampleIntercepts (est : List ℝ → List ℝ → ℝ × ℝ)
    (r : ℕ → ℕ → ℝ) (B : ℕ) (x y : List ℝ) : List ℝ :=
  (List.range B).map (fun i => (est (bootSampleX r x i) (bootSampleY r x y i)).2)

/-- getQuantile of the source: p = 1 and p = 0 short-circuit to the
extremes, otherwise linear interpolation between the entries at
floor((n-1)p) and ceil((n-1)p).  Only called with 0 <= p <= 1 on a
non-empty sorted array, so every index is in range and the getD
default is never read. -/
noncomputable def getQuantile (s : List ℝ) (n : ℕ) (p : ℝ) : ℝ :=
  if p = 1 then s.getD (n - 1) 0
  else if p = 0 then s.getD 0 0
  else
    let index : ℝ := ((n : ℝ) - 1) * p
    let lo : ℕ := Int.toNat ⌊index⌋
    let hi : ℕ := Int.toNat ⌈index⌉
    if lo = hi then s.getD lo 0
    else s.getD lo 0 + (s.getD hi 0 - s.getD lo 0) * (index - (lo : ℝ))

/-- The local quantile function: undefined (none) on the empty array,
a RangeError for a probability outside [0, 1], otherwise the
interpolated quantile for each probability over a sorted copy. -/
noncomputable def quantile (arr : List ℝ) (probs : List ℝ) :
    Except String (Option (List ℝ)) :=
  if arr.length = 0 then .ok none
  else if probs.any (fun q => decide (q < 0 ∨ 1 < q)) then
    .error "Quantiles must be between 0 and 1"
  else .ok (some (probs.map (getQuantile (PassingBablokRegression.sortAsc arr)
    arr.length)))

/-- BootstrapConfidenceInterval.calculate.  est is the wrapped
regression (modeled with real-valued coefficients), r the random
stream.  The slope quantile call runs before the intercept one, so its
RangeError propagates first; the undefined quantile result (empty
resample array, B = 0) turns the four limits into NaN. -/
noncomputable def calculate (est : List ℝ → List ℝ → ℝ × ℝ)
    (r : ℕ → ℕ → ℝ) (B : ℕ) (alpha : ℝ) (x y : List ℝ) :
    Except String ConfidenceIntervalModel :=
  let g := est x y
  let b1 := PassingBablokRegression.sortAsc (resampleSlopes est r B x y)
  let b0 := PassingBablokRegression.sortAsc (resampleIntercepts est r B x y)
  match quantile b1 [alpha / 2, 1 - alpha / 2] with
  | .error e => .error e
  | .ok sCI =>
    match quantile b0 [alpha / 2, 1 - alpha / 2] with
    | .error e => .error e
    | .ok iCI =>
      .ok { slope := jN g.1, intercept := jN g.2,
            slopeSE := JsNum.nan, interceptSE := JsNum.nan,
            slopeLCL := match sCI with
              | none => JsNum.nan
              | some l => jN (l.getD 0 0),
            slopeUCL := match sCI with
              | none => JsNum.nan
              | some l => jN (l.getD 1 0),
            interceptLCL := match iCI with
              | none => JsNum.nan
              | some l => jN (l.getD 0 0),
            interceptUCL := match iCI with
              | none => JsNum.nan
              | some l => jN (l.getD 1 0) }

end BootstrapConfidenceInterval


namespace JsNum

variable {α : Type} [LinearOrderedField α]

@[simp] theorem add_nan (x : JsNum α) : add x nan = nan := by cases x <;> rfl

@[simp] theorem nan_add (x : JsNum α) : add nan x = nan := by cases x <;> rfl

@[simp] theorem mul_nan (x : JsNum α) : mul x nan = nan := by cases x <;> rfl

@[simp] theorem nan_mul (x : JsNum α) : mul nan x = nan := by cases x <;> rfl

@[simp] theorem div_nan (x : JsNum α) : div x nan = nan := by cases x <;> rfl

@[simp] theorem nan_div (x : JsNum α) : div nan x = nan := by cases x <;> rfl

@[simp] theorem sub_nan (x : JsNum α) : sub x nan = nan := by cases x <;> rfl

@[simp] theorem nan_sub (x : JsNum α) : sub nan x = nan := by cases x <;> rfl

@[simp] theorem add_num_num (a b : α) : add (num a) (num b) = num (a + b) := rfl

@[simp] theorem sub_num_num (a b : α) : sub (num a) (num b) = num (a - b) := by
  simp [sub, add, neg, sub_eq_add_neg]

@[simp] theorem mul_num_num (a b : α) : mul (num a) (num b) = num (a * b) := rfl

@[simp] theorem absJ_nan : absJ (nan : JsNum α) = nan := rfl

@[simp] theorem maxJ_nan (x : JsNum α) : maxJ x nan = nan := by cases x <;> rfl

@[simp] theorem ltB_nan (x : JsNum α) : ltB x nan = false := by cases x <;> rfl

@[simp] theorem nan_ltB (x : JsNum α) : ltB nan x = false := by cases x <;> rfl

theorem div_num_num_of_ne (a b : α) (hb : b ≠ 0) :
    div (num a) (num b) = num (a / b) := by
  simp [div, hb]

theorem div_num_zero_zero : div (num (0 : α)) (num 0) = nan := by
  simp [div]

end JsNum

namespace DemingRegression

theorem validate_none_iff (er : ℝ) (x y : List ℝ) :
    validate er x y = none ↔
      (x.length = y.length ∧ x.length ≠ 0 ∧ 0 < er ∧
        (∀ v ∈ x, 0 ≤ v) ∧ (∀ v ∈ y, 0 ≤ v)) := by
  by_cases h1 : (¬x.length = y.length ∨ x = [])
  · refine iff_of_false (by simp [validate, h1]) ?_
    rintro ⟨hl, hz, -, -, -⟩
    rcases h1 with h | h
    · exact h hl
    · exact hz (by simp [h])
  · by_cases h2 : er ≤ 0
    · refine iff_of_false (by simp [validate, h1, h2]) ?_
      rintro ⟨-, -, her, -, -⟩
      exact absurd her (not_lt.mpr h2)
    · by_cases h3 : ((∃ v ∈ x, v < 0) ∨ (∃ v ∈ y, v < 0))
      · refine iff_of_false (by simp [validate, h1, h2, h3]) ?_
        rintro ⟨-, -, -, hx, hy⟩
        rcases h3 with ⟨v, hv, hlt⟩ | ⟨v, hv, hlt⟩
        · exact absurd (hx v hv) (not_le.mpr hlt)
        · exact absurd (hy v hv) (not_le.mpr hlt)
      · refine iff_of_true (by simp [validate, h1, h2, h3]) ?_
        push_neg at h1 h3
        exact ⟨h1.1, fun h0 => h1.2 (List.length_eq_zero.mp h0), not_le.mp h2,
          fun v hv => h3.1 v hv, fun v hv => h3.2 v hv⟩

theorem validate_some_imp (er : ℝ) (x y : List ℝ) (e : InputValidationError)
    (h : validate er x y = some e) :
    x.length ≠ y.length ∨ x.length = 0 ∨ er ≤ 0 ∨
      (∃ v ∈ x, v < 0) ∨ (∃ v ∈ y, v < 0) := by
  by_contra hc
  push_neg at hc
  have hnone : validate er x y = none :=
    (validate_none_iff er x y).mpr
      ⟨hc.1, hc.2.1, hc.2.2.1, hc.2.2.2.1, hc.2.2.2.2⟩
  rw [h] at hnone
  cases hnone

theorem error_iff (er : ℝ) (x y : List ℝ) :
    (∃ e, calculate er x y = Except.error e) ↔
      (x.length ≠ y.length ∨ x.length = 0 ∨ er ≤ 0 ∨
        (∃ v ∈ x, v < 0) ∨ (∃ v ∈ y, v < 0)) := by
  have hiff := validate_none_iff er x y
  rcases h : validate er x y with _ | e
  · have hval := hiff.mp h
    simp only [calculate, h]
    constructor
    · rintro ⟨e, he⟩; cases he
    · rintro (hc | hc | hc | ⟨v, hv, hlt⟩ | ⟨v, hv, hlt⟩)
      · exact absurd hval.1 hc
      · exact absurd hc hval.2.1
      · exact absurd hval.2.2.1 (not_lt.mpr hc)
      · exact absurd (hval.2.2.2.1 v hv) (not_le.mpr hlt)
      · exact absurd (hval.2.2.2.2 v hv) (not_le.mpr hlt)
  · simp only [calculate, h]
    constructor
    · intro _
      exact validate_some_imp er x y e h
    · intro _; exact ⟨e, rfl⟩

theorem finite_iff_crossDev (er : ℝ) (x y : List ℝ)
    (hlen : x.length = y.length) (hnz : x.length ≠ 0) (her : 0 < er)
    (hx : ∀ v ∈ x, 0 ≤ v) (hy : ∀ v ∈ y, 0 ≤ v) :
    ∃ m, calculate er x y = Except.ok m ∧
      (m.slope.finite = true ↔ crossDev x y ≠ 0) ∧
      (m.intercept.finite = true ↔ crossDev x y ≠ 0) := by
  have hval : validate er x y = none :=
    (validate_none_iff er x y).mpr ⟨hlen, hnz, her, hx, hy⟩
  refine ⟨core er x y, by simp [calculate, hval], ?_, ?_⟩
  · unfold core
    by_cases hp : crossDev x y = 0
    · simp only [hp]
      have hden : 2 * er * (0 : ℝ) = 0 := by ring
      simp only [hden, jDiv, JsNum.div, if_pos rfl]
      split_ifs <;> simp [JsNum.finite, hp]
    · have hden : 2 * er * crossDev x y ≠ 0 := by
        intro h
        rcases mul_eq_zero.mp h with h2 | h2
        · rcases mul_eq_zero.mp h2 with h3 | h3
          · norm_num at h3
          · exact absurd h3 (ne_of_gt her)
        · exact hp h2
      simp [jDiv, JsNum.div, hden, JsNum.finite, hp]
  · unfold core
    by_cases hp : crossDev x y = 0
    · simp only [hp]
      have hden : 2 * er * (0 : ℝ) = 0 := by ring
      simp only [hden, jDiv, JsNum.div, if_pos rfl]
      split_ifs <;>
        simp [jSub, jMul, JsNum.sub, JsNum.add, JsNum.neg, JsNum.mul,
              JsNum.finite, hp] <;> split_ifs <;> simp
    · have hden : 2 * er * crossDev x y ≠ 0 := by
        intro h
        rcases mul_eq_zero.mp h with h2 | h2
        · rcases mul_eq_zero.mp h2 with h3 | h3
          · norm_num at h3
          · exact absurd h3 (ne_of_gt her)
        · exact hp h2
      simp [jDiv, JsNum.div, hden, jSub, jMul, JsNum.sub, JsNum.add,
            JsNum.neg, JsNum.mul, JsNum.finite, hp]

end DemingRegression

namespace WeightedDemingRegression

theorem wdValidate_none_iff (er : ℝ) (im : ℕ) (th : ℝ) (x y : List ℝ) :
    validate er im th x y = none ↔
      (x.length = y.length ∧ x.length ≠ 0 ∧ 0 < er ∧ 0 < im ∧ 0 < th ∧
        (∀ v ∈ x, 0 ≤ v) ∧ (∀ v ∈ y, 0 ≤ v)) := by
  by_cases h1 : (¬x.length = y.length ∨ x = [])
  · refine iff_of_false (by simp [validate, h1]) ?_
    rintro ⟨hl, hz, -, -, -, -, -⟩
    rcases h1 with h | h
    · exact h hl
    · exact hz (by simp [h])
  · by_cases h2 : er ≤ 0
    · refine iff_of_false (by simp [validate, h1, h2]) ?_
      rintro ⟨-, -, her, -, -, -, -⟩
      exact absurd her (not_lt.mpr h2)
    · by_cases hI : im = 0
      · refine iff_of_false (by simp [validate, h1, h2, hI]) ?_
        rintro ⟨-, -, -, him, -, -, -⟩
        rw [hI] at him
        exact absurd him (lt_irrefl 0)
      · by_cases hT : th ≤ 0
        · refine iff_of_false (by simp [validate, h1, h2, hI, hT]) ?_
          rintro ⟨-, -, -, -, hth, -, -⟩
          exact absurd hth (not_lt.mpr hT)
        · by_cases h3 : ((∃ v ∈ x, v < 0) ∨ (∃ v ∈ y, v < 0))
          · refine iff_of_false (by simp [validate, h1, h2, hI, hT, h3]) ?_
            rintro ⟨-, -, -, -, -, hx, hy⟩
            rcases h3 with ⟨v, hv, hlt⟩ | ⟨v, hv, hlt⟩
            · exact absurd (hx v hv) (not_le.mpr hlt)
            · exact absurd (hy v hv) (not_le.mpr hlt)
          · refine iff_of_true (by simp [validate, h1, h2, hI, hT, h3]) ?_
            push_neg at h1 h3
            exact ⟨h1.1, fun h0 => h1.2 (List.length_eq_zero.mp h0), not_le.mp h2,
              Nat.pos_of_ne_zero hI, not_le.mp hT,
              fun v hv => h3.1 v hv, fun v hv => h3.2 v hv⟩

theorem wdValidate_some_imp (er : ℝ) (im : ℕ) (th : ℝ) (x y : List ℝ)
    (e : InputValidationError) (h : validate er im th x y = some e) :
    x.length ≠ y.length ∨ x.length = 0 ∨ er ≤ 0 ∨ im = 0 ∨ th ≤ 0 ∨
      (∃ v ∈ x, v < 0) ∨ (∃ v ∈ y, v < 0) := by
  by_contra hc
  push_neg at hc
  have hnone : validate er im th x y = none :=
    (wdValidate_none_iff er im th x y).mpr
      ⟨hc.1, hc.2.1, hc.2.2.1, Nat.pos_of_ne_zero hc.2.2.2.1, hc.2.2.2.2.1,
        hc.2.2.2.2.2.1, hc.2.2.2.2.2.2⟩
  rw [h] at hnone
  cases hnone

theorem wdError_iff (er : ℝ) (im : ℕ) (th : ℝ) (x y : List ℝ) :
    (∃ e, calculate er im th x y = Except.error e) ↔
      (x.length ≠ y.length ∨ x.length = 0 ∨ er ≤ 0 ∨ im = 0 ∨ th ≤ 0 ∨
        (∃ v ∈ x, v < 0) ∨ (∃ v ∈ y, v < 0)) := by
  rcases h : validate er im th x y with _ | e
  · have hval := (wdValidate_none_iff er im th x y).mp h
    simp only [calculate, h]
    constructor
    · rintro ⟨e, he⟩; cases he
    · rintro (hc | hc | hc | hc | hc | ⟨v, hv, hlt⟩ | ⟨v, hv, hlt⟩)
      · exact absurd hval.1 hc
      · exact absurd hc hval.2.1
      · exact absurd hval.2.2.1 (not_lt.mpr hc)
      · exact absurd hval.2.2.2.1 (by rw [hc]; exact lt_irrefl 0)
      · exact absurd hval.2.2.2.2.1 (not_lt.mpr hc)
      · exact absurd (hval.2.2.2.2.2.1 v hv) (not_le.mpr hlt)
      · exact absurd (hval.2.2.2.2.2.2 v hv) (not_le.mpr hlt)
  · simp only [calculate, h]
    constructor
    · intro _
      exact wdValidate_some_imp er im th x y e h
    · intro _; exact ⟨e, rfl⟩

theorem loop_iterations_le (lambda threshold : ℝ) (iterMax : ℕ) (x y : List ℝ) :
    ∀ (rem iter : ℕ) (b1 b0 : JsNum ℝ) (w : Bool),
      (loop lambda threshold iterMax x y b1 b0 rem iter w).iterations ≤ iter + rem := by
  intro rem
  induction rem with
  | zero =>
      intro iter b1 b0 w
      simp [loop]
  | succ n ih =>
      intro iter b1 b0 w
      by_cases hc : (jLt (jAbs (jSub b1 (step lambda x y b1 b0).1)) (jN threshold) &&
          jLt (jAbs (jSub b0 (step lambda x y b1 b0).2)) (jN threshold)) = true
      · simp only [loop, hc, if_true]
        omega
      · simp only [loop, hc, Bool.false_eq_true, if_false]
        have := ih (iter + 1) (step lambda x y b1 b0).1 (step lambda x y b1 b0).2
          (w || decide (iter + 1 = iterMax))
        omega

theorem loop_break_of_conv (lambda threshold : ℝ) (iterMax : ℕ) (x y : List ℝ)
    (rem iter : ℕ) (b1 b0 : JsNum ℝ) (w : Bool)
    (hc : (jLt (jAbs (jSub b1 (step lambda x y b1 b0).1)) (jN threshold) &&
      jLt (jAbs (jSub b0 (step lambda x y b1 b0).2)) (jN threshold)) = true) :
    loop lambda threshold iterMax x y b1 b0 (rem + 1) iter w =
      { b1 := b1, b0 := b0, iterations := iter + 1,
        warned := w || decide (iter + 1 = iterMax) } := by
  simp only [loop, hc, if_true]

theorem loop_warned_mono (lambda threshold : ℝ) (iterMax : ℕ) (x y : List ℝ) :
    ∀ (rem iter : ℕ) (b1 b0 : JsNum ℝ),
      (loop lambda threshold iterMax x y b1 b0 rem iter true).warned = true := by
  intro rem
  induction rem with
  | zero =>
      intro iter b1 b0
      simp [loop]
  | succ n ih =>
      intro iter b1 b0
      by_cases hc : (jLt (jAbs (jSub b1 (step lambda x y b1 b0).1)) (jN threshold) &&
          jLt (jAbs (jSub b0 (step lambda x y b1 b0).2)) (jN threshold)) = true
      · simp only [loop, hc, if_true]
        simp
      · simp only [loop, hc, Bool.false_eq_true, if_false]
        simpa using ih (iter + 1) (step lambda x y b1 b0).1 (step lambda x y b1 b0).2

theorem loop_warned_of_exhaust (lambda threshold : ℝ) (iterMax : ℕ) (x y : List ℝ) :
    ∀ (rem iter : ℕ) (b1 b0 : JsNum ℝ) (w : Bool),
      iter < iterMax →
      iterMax ≤ (loop lambda threshold iterMax x y b1 b0 rem iter w).iterations →
      (loop lambda threshold iterMax x y b1 b0 rem iter w).warned = true := by
  intro rem
  induction rem with
  | zero =>
      intro iter b1 b0 w hlt hle
      simp only [loop] at hle
      omega
  | succ n ih =>
      intro iter b1 b0 w hlt hle
      by_cases hc : (jLt (jAbs (jSub b1 (step lambda x y b1 b0).1)) (jN threshold) &&
          jLt (jAbs (jSub b0 (step lambda x y b1 b0).2)) (jN threshold)) = true
      · simp only [loop, hc, if_true] at hle ⊢
        have : iter + 1 = iterMax := by omega
        simp [this]
      · simp only [loop, hc, Bool.false_eq_true, if_false] at hle ⊢
        by_cases hm : iter + 1 = iterMax
        · have hw : (w || decide (iter + 1 = iterMax)) = true := by simp [hm]
          rw [hw]
          exact loop_warned_mono lambda threshold iterMax x y n (iter + 1) _ _
        · have hlt2 : iter + 1 < iterMax := by omega
          exact ih (iter + 1) _ _ _ hlt2 hle

end WeightedDemingRegression


/-- Real square root of 4, used when evaluating the models on concrete
inputs. -/
theorem realSqrt_four : Real.sqrt 4 = 2 := by
  have h : (4 : ℝ) = 2 ^ 2 := by norm_num
  rw [h, Real.sqrt_sq (by norm_num)]

/-- Real square root of 25, used when evaluating the models on concrete
inputs. -/
theorem realSqrt_twentyfive : Real.sqrt 25 = 5 := by
  have h : (25 : ℝ) = 5 ^ 2 := by norm_num
  rw [h, Real.sqrt_sq (by norm_num)]

/-- On x = [1, 2], y = [1, 2] with error ratio 1, one reweighting step
taken from the iterate (1, 0) returns (1, 0) again: a fixed point of
the weighted Deming update. -/
theorem wdStep_fixed_point :
    WeightedDemingRegression.step 1 [1, 2] [1, 2] (jN 1) (jN 0) = (jN 1, jN 0) := by
  norm_num [WeightedDemingRegression.step, jDiv, JsNum.div, JsNum.add, JsNum.mul,
    JsNum.sub, JsNum.neg, JsNum.powNeg2, JsNum.sqrtJ, JsNum.sumJ, List.foldl,
    realSqrt_four, realSqrt_twentyfive]

/-- On the constant input x = [1, 1], y = [2, 2] every deviation sum is
zero, so the Deming seed is already NaN and one reweighting step maps
the NaN iterate to NaN again. -/
theorem wdStep_nan_nan :
    WeightedDemingRegression.step 1 [1, 1] [2, 2] JsNum.nan JsNum.nan =
      (JsNum.nan, JsNum.nan) := by
  simp [WeightedDemingRegression.step, JsNum.sumJ, JsNum.powNeg2, JsNum.sqrtJ]

theorem realSqrt_sixteen : Real.sqrt 16 = 4 := by
  have h : (16 : ℝ) = 4 ^ 2 := by norm_num
  rw [h, Real.sqrt_sq (by norm_num)]

theorem wdeming_seed_012 :
    (DemingRegression.core 1 [0, 1, 2] [0, 1, 2]).slope = jN 1 ∧
    (DemingRegression.core 1 [0, 1, 2] [0, 1, 2]).intercept = jN 0 := by
  have hm : mean [(0 : ℝ), 1, 2] = 1 := by norm_num [mean]
  have hu : devsq [(0 : ℝ), 1, 2] = 2 := by norm_num [devsq, mean]
  have hp : crossDev [(0 : ℝ), 1, 2] [0, 1, 2] = 2 := by
    norm_num [crossDev, mean, List.zip_cons_cons]
  constructor
  · unfold DemingRegression.core
    simp only [hm, hu, hp]
    norm_num [realSqrt_sixteen, jDiv, JsNum.div]
  · unfold DemingRegression.core
    simp only [hm, hu, hp]
    norm_num [realSqrt_sixteen, jDiv, jSub, jMul, JsNum.div, JsNum.sub,
      JsNum.add, JsNum.neg, JsNum.mul]

theorem wdStep_012_first :
    WeightedDemingRegression.step 1 [0, 1, 2] [0, 1, 2] (jN 1) (jN 0) =
      (JsNum.nan, JsNum.nan) := by
  norm_num [WeightedDemingRegression.step, jDiv, JsNum.div, JsNum.add,
    JsNum.mul, JsNum.sub, JsNum.neg, JsNum.powNeg2, JsNum.sqrtJ, JsNum.sumJ,
    List.foldl, List.zip_cons_cons]

theorem wdStep_012_nan :
    WeightedDemingRegression.step 1 [0, 1, 2] [0, 1, 2] JsNum.nan JsNum.nan =
      (JsNum.nan, JsNum.nan) := by
  simp [WeightedDemingRegression.step, JsNum.sumJ, JsNum.powNeg2, JsNum.sqrtJ,
    List.zip_cons_cons]

theorem wdLoop_012_nan_absorb (th : ℝ) (im : ℕ) :
    ∀ (rem iter : ℕ) (warned : Bool),
      (WeightedDemingRegression.loop 1 th im [0, 1, 2] [0, 1, 2]
        JsNum.nan JsNum.nan rem iter warned).b1 = JsNum.nan ∧
      (WeightedDemingRegression.loop 1 th im [0, 1, 2] [0, 1, 2]
        JsNum.nan JsNum.nan rem iter warned).b0 = JsNum.nan := by
  intro rem
  induction rem with
  | zero => intro iter warned; simp [WeightedDemingRegression.loop]
  | succ r ih =>
      intro iter warned
      simp only [WeightedDemingRegression.loop, wdStep_012_nan, JsNum.sub_nan,
        JsNum.absJ_nan, JsNum.ltB_nan, Bool.false_and, Bool.false_eq_true,
        if_false]
      exact ih _ _

theorem wdeming_p_nonzero_nan (im : ℕ) (th : ℝ) (him : 0 < im) (hth : 0 < th) :
    ∃ r, WeightedDemingRegression.calculate 1 im th [0, 1, 2] [0, 1, 2] =
        Except.ok r ∧
      r.model.slope = JsNum.nan ∧ r.model.intercept = JsNum.nan := by
  have hval : WeightedDemingRegression.validate 1 im th [0, 1, 2] [0, 1, 2] =
      none := by
    rw [WeightedDemingRegression.wdValidate_none_iff]
    refine ⟨rfl, by norm_num, by norm_num, him, hth, ?_, ?_⟩ <;>
      (intro v hv;
       simp only [List.mem_cons, List.not_mem_nil, or_false] at hv;
       rcases hv with h | h | h <;> rw [h] <;> norm_num)
  obtain ⟨hs, hi⟩ := wdeming_seed_012
  have hloop : (WeightedDemingRegression.loop 1 th im [0, 1, 2] [0, 1, 2]
        (jN 1) (jN 0) (im + 1) 0 false).b1 = JsNum.nan ∧
      (WeightedDemingRegression.loop 1 th im [0, 1, 2] [0, 1, 2]
        (jN 1) (jN 0) (im + 1) 0 false).b0 = JsNum.nan := by
    simp only [WeightedDemingRegression.loop, wdStep_012_first, JsNum.sub_nan,
      JsNum.nan_sub, JsNum.absJ_nan, JsNum.ltB_nan, Bool.false_and,
      Bool.false_eq_true, if_false]
    exact wdLoop_012_nan_absorb th im im _ _
  have hcal : WeightedDemingRegression.calculate 1 im th [0, 1, 2] [0, 1, 2] =
      Except.ok
        { model :=
            { slope := (WeightedDemingRegression.loop 1 th im [0, 1, 2]
                [0, 1, 2] (jN 1) (jN 0) (im + 1) 0 false).b1,
              intercept := (WeightedDemingRegression.loop 1 th im [0, 1, 2]
                [0, 1, 2] (jN 1) (jN 0) (im + 1) 0 false).b0,
              slopeLCL := JsNum.nan, slopeUCL := JsNum.nan,
              interceptLCL := JsNum.nan, interceptUCL := JsNum.nan },
          iterations := (WeightedDemingRegression.loop 1 th im [0, 1, 2]
            [0, 1, 2] (jN 1) (jN 0) (im + 1) 0 false).iterations,
          warned := (WeightedDemingRegression.loop 1 th im [0, 1, 2]
            [0, 1, 2] (jN 1) (jN 0) (im + 1) 0 false).warned } := by
    simp only [WeightedDemingRegression.calculate, hval, hs, hi]
  exact ⟨_, hcal, hloop.1, hloop.2⟩

/-- C1: DemingRegression.calculate and WeightedDemingRegression.calculate
throw a validation error exactly when the inputs are invalid (length
mismatch or zero length, non-positive error ratio, a negative value,
and for the weighted variant a non-positive iteration cap or
threshold); for inputs that pass validation no error is thrown, but
validity does not guarantee finite results: for DemingRegression the
returned coefficients are finite exactly when the cross-deviation sum
p = sum of (x i - mean x) * (y i - mean y) is nonzero, and for
WeightedDemingRegression even a nonzero p does not suffice — the valid
input x = [0, 1, 2], y = [0, 1, 2] has p = 2 yet returns NaN slope and
intercept, because the first weight is pow(0, -2) = Infinity and
Infinity * 0 = NaN. -/
theorem claim1_validation_exact_finiteness_iff :
    (∀ (er : ℝ) (x y : List ℝ),
        (∃ e, DemingRegression.calculate er x y = Except.error e) ↔
          (x.length ≠ y.length ∨ x.length = 0 ∨ er ≤ 0 ∨
            (∃ v ∈ x, v < 0) ∨ (∃ v ∈ y, v < 0)))
    ∧ (∀ (er : ℝ) (im : ℕ) (th : ℝ) (x y : List ℝ),
        (∃ e, WeightedDemingRegression.calculate er im th x y = Except.error e) ↔
          (x.length ≠ y.length ∨ x.length = 0 ∨ er ≤ 0 ∨ im = 0 ∨ th ≤ 0 ∨
            (∃ v ∈ x, v < 0) ∨ (∃ v ∈ y, v < 0)))
    ∧ (∀ (er : ℝ) (x y : List ℝ),
        x.length = y.length → x.length ≠ 0 → 0 < er →
        (∀ v ∈ x, 0 ≤ v) → (∀ v ∈ y, 0 ≤ v) →
        ∃ m, DemingRegression.calculate er x y = Except.ok m ∧
          (m.slope.finite = true ↔ crossDev x y ≠ 0) ∧
          (m.intercept.finite = true ↔ crossDev x y ≠ 0))
    ∧ crossDev [0, 1, 2] [0, 1, 2] = 2
    ∧ (∀ (im : ℕ) (th : ℝ), 0 < im → 0 < th →
        ∃ r, WeightedDemingRegression.calculate 1 im th [0, 1, 2] [0, 1, 2] =
            Except.ok r ∧
          r.model.slope = JsNum.nan ∧ r.model.intercept = JsNum.nan) :=
  ⟨DemingRegression.error_iff, WeightedDemingRegression.wdError_iff,
    DemingRegression.finite_iff_crossDev,
    by norm_num [crossDev, mean, List.zip_cons_cons],
    wdeming_p_nonzero_nan⟩

/-- C1 counterexample: x = [1], y = [1] passes every validation check
of DemingRegression.calculate (equal nonzero lengths, error ratio 1,
no negative value), yet the returned slope and intercept are NaN, not
finite, because the cross-deviation sum is zero. -/
theorem claim1_constant_input_gives_nan :
    ∃ m, DemingRegression.calculate 1 [1] [1] = Except.ok m ∧
      m.slope = JsNum.nan ∧ m.intercept = JsNum.nan ∧
      m.slope.finite = false ∧ m.intercept.finite = false := by
  have hval : DemingRegression.validate 1 [1] [1] = none := by
    rw [DemingRegression.validate_none_iff]
    norm_num
  have hm : mean [(1 : ℝ)] = 1 := by simp [mean]
  have hu : devsq [(1 : ℝ)] = 0 := by simp [devsq, mean]
  have hp : crossDev [(1 : ℝ)] [1] = 0 := by simp [crossDev, mean]
  have hs : (DemingRegression.core 1 [1] [1]).slope = JsNum.nan := by
    unfold DemingRegression.core
    simp only [hm, hu, hp]
    norm_num [Real.sqrt_zero, JsNum.div]
  have hi : (DemingRegression.core 1 [1] [1]).intercept = JsNum.nan := by
    unfold DemingRegression.core
    simp only [hm, hu, hp]
    norm_num [Real.sqrt_zero, JsNum.div, JsNum.sub, JsNum.add, JsNum.mul, JsNum.neg]
  refine ⟨DemingRegression.core 1 [1] [1],
    by simp [DemingRegression.calculate, hval], hs, hi, ?_, ?_⟩
  · rw [hs]; rfl
  · rw [hi]; rfl

/-- C1 witness: a length-mismatched input throws, a non-positive error
ratio throws, the valid input x = [1, 2], y = [1, 2] returns with the
finiteness characterization, and the valid nonzero-p input
x = [0, 1, 2], y = [0, 1, 2] exercises the weighted NaN outcome at
iterMax = 2, threshold = 1. -/
theorem claim1_witness :
    (∃ e, DemingRegression.calculate 1 [1, 2] [3] = Except.error e) ∧
    (∃ e, WeightedDemingRegression.calculate 0 5 1 [1] [1] = Except.error e) ∧
    (∃ m, DemingRegression.calculate 1 [1, 2] [1, 2] = Except.ok m ∧
      (m.slope.finite = true ↔ crossDev [1, 2] [1, 2] ≠ 0) ∧
      (m.intercept.finite = true ↔ crossDev [1, 2] [1, 2] ≠ 0)) ∧
    (∃ r, WeightedDemingRegression.calculate 1 2 1 [0, 1, 2] [0, 1, 2] =
        Except.ok r ∧
      r.model.slope = JsNum.nan ∧ r.model.intercept = JsNum.nan) := by
  refine ⟨?_, ?_, ?_, ?_⟩
  · exact (claim1_validation_exact_finiteness_iff.1 1 [1, 2] [3]).mpr
      (Or.inl (by norm_num))
  · exact (claim1_validation_exact_finiteness_iff.2.1 0 5 1 [1] [1]).mpr
      (Or.inr (Or.inr (Or.inl le_rfl)))
  · exact claim1_validation_exact_finiteness_iff.2.2.1 1 [1, 2] [1, 2]
      rfl (by norm_num) (by norm_num)
      (by intro v hv; simp only [List.mem_cons, List.not_mem_nil, or_false] at hv; rcases hv with h | h <;> rw [h] <;> norm_num)
      (by intro v hv; simp only [List.mem_cons, List.not_mem_nil, or_false] at hv; rcases hv with h | h <;> rw [h] <;> norm_num)
  · exact claim1_validation_exact_finiteness_iff.2.2.2.2 2 1
      (by norm_num) (by norm_num)

/-- C7 (amended): for every input accepted by the validation of
WeightedDemingRegression.calculate, the reweighting loop terminates
after at most maxIter + 1 body executions (the while condition
iter <= maxIter admits one execution more than maxIter), the last
iterate is returned with no exception, and whenever the counter
reaches maxIter without prior convergence the convergence warning has
been logged; moreover the loop stops immediately, returning the
previous iterate, as soon as both coefficients change by less than the
threshold. -/
theorem claim7_loop_bounded_warns :
    (∀ (er : ℝ) (im : ℕ) (th : ℝ) (x y : List ℝ),
        x.length = y.length → x.length ≠ 0 → 0 < er → 0 < im → 0 < th →
        (∀ v ∈ x, 0 ≤ v) → (∀ v ∈ y, 0 ≤ v) →
        ∃ r, WeightedDemingRegression.calculate er im th x y = Except.ok r ∧
          r.iterations ≤ im + 1 ∧
          (im ≤ r.iterations → r.warned = true))
    ∧ (∀ (lambda threshold : ℝ) (iterMax : ℕ) (x y : List ℝ)
        (rem iter : ℕ) (b1 b0 : JsNum ℝ) (w : Bool),
        (jLt (jAbs (jSub b1 (WeightedDemingRegression.step lambda x y b1 b0).1))
            (jN threshold) &&
         jLt (jAbs (jSub b0 (WeightedDemingRegression.step lambda x y b1 b0).2))
            (jN threshold)) = true →
        WeightedDemingRegression.loop lambda threshold iterMax x y b1 b0
            (rem + 1) iter w =
          { b1 := b1, b0 := b0, iterations := iter + 1,
            warned := w || decide (iter + 1 = iterMax) }) := by
  constructor
  · intro er im th x y hlen hnz her him hth hx hy
    have hval : WeightedDemingRegression.validate er im th x y = none :=
      (WeightedDemingRegression.wdValidate_none_iff er im th x y).mpr
        ⟨hlen, hnz, her, him, hth, hx, hy⟩
    simp only [WeightedDemingRegression.calculate, hval]
    refine ⟨_, rfl, ?_, ?_⟩
    · simpa using WeightedDemingRegression.loop_iterations_le er th im x y
        (im + 1) 0 _ _ false
    · intro hge
      exact WeightedDemingRegression.loop_warned_of_exhaust er th im x y
        (im + 1) 0 _ _ false him hge
  · intro lambda threshold iterMax x y rem iter b1 b0 w hc
    exact WeightedDemingRegression.loop_break_of_conv lambda threshold iterMax
      x y rem iter b1 b0 w hc

/-- C7 counterexample: with maxIter = 1 and the valid never-converging
input x = [1, 1], y = [2, 2] (threshold 1), the loop body executes
twice, exceeding maxIter, and the NaN iterate is returned with the
warning raised and no exception. -/
theorem claim7_two_iterations_on_cap_one :
    ∃ r, WeightedDemingRegression.calculate 1 1 1 [1, 1] [2, 2] = Except.ok r ∧
      r.iterations = 2 ∧ ¬ r.iterations ≤ 1 ∧ r.warned = true ∧
      r.model.slope = JsNum.nan := by
  have hval : WeightedDemingRegression.validate 1 1 1 [1, 1] [2, 2] = none := by
    rw [WeightedDemingRegression.wdValidate_none_iff]
    norm_num
  have hm : mean [(1 : ℝ), 1] = 1 := by norm_num [mean]
  have hmy : mean [(2 : ℝ), 2] = 2 := by norm_num [mean]
  have hu : devsq [(1 : ℝ), 1] = 0 := by norm_num [devsq, mean]
  have hq : devsq [(2 : ℝ), 2] = 0 := by norm_num [devsq, mean]
  have hp : crossDev [(1 : ℝ), 1] [2, 2] = 0 := by norm_num [crossDev, mean]
  have hseed1 : (DemingRegression.core 1 [1, 1] [2, 2]).slope = JsNum.nan := by
    unfold DemingRegression.core
    simp only [hm, hmy, hu, hq, hp]
    norm_num [Real.sqrt_zero, JsNum.div]
  have hseed0 : (DemingRegression.core 1 [1, 1] [2, 2]).intercept = JsNum.nan := by
    unfold DemingRegression.core
    simp only [hm, hmy, hu, hq, hp]
    norm_num [Real.sqrt_zero, JsNum.div, JsNum.sub, JsNum.add, JsNum.mul, JsNum.neg]
  have hloop : WeightedDemingRegression.loop 1 1 1 [1, 1] [2, 2]
      JsNum.nan JsNum.nan 2 0 false =
      { b1 := JsNum.nan, b0 := JsNum.nan, iterations := 2, warned := true } := by
    simp [WeightedDemingRegression.loop, wdStep_nan_nan, JsNum.absJ]
  refine ⟨⟨⟨JsNum.nan, JsNum.nan, JsNum.nan, JsNum.nan, JsNum.nan, JsNum.nan⟩,
    2, true⟩, ?_, rfl, by norm_num, rfl, rfl⟩
  simp only [WeightedDemingRegression.calculate, hval, hseed1, hseed0, hloop]

/-- C7 witness: the bounded-loop theorem applied to the valid input
x = [1, 2], y = [1, 2] with maxIter = 5, and the early-exit clause
applied at the fixed-point iterate (1, 0), which converges in one
body execution. -/
theorem claim7_witness :
    (∃ r, WeightedDemingRegression.calculate 1 5 1 [1, 2] [1, 2] = Except.ok r ∧
      r.iterations ≤ 5 + 1 ∧ (5 ≤ r.iterations → r.warned = true)) ∧
    WeightedDemingRegression.loop 1 1 5 [1, 2] [1, 2] (jN 1) (jN 0) 3 0 false =
      { b1 := jN 1, b0 := jN 0, iterations := 1, warned := false } := by
  constructor
  · exact claim7_loop_bounded_warns.1 1 5 1 [1, 2] [1, 2]
      rfl (by norm_num) (by norm_num) (by norm_num) (by norm_num)
      (by intro v hv; simp only [List.mem_cons, List.not_mem_nil, or_false] at hv; rcases hv with h | h <;> rw [h] <;> norm_num)
      (by intro v hv; simp only [List.mem_cons, List.not_mem_nil, or_false] at hv; rcases hv with h | h <;> rw [h] <;> norm_num)
  · have hc : (jLt (jAbs (jSub (jN 1)
        (WeightedDemingRegression.step 1 [1, 2] [1, 2] (jN 1) (jN 0)).1)) (jN 1) &&
        jLt (jAbs (jSub (jN (0 : ℝ))
        (WeightedDemingRegression.step 1 [1, 2] [1, 2] (jN 1) (jN 0)).2)) (jN 1))
        = true := by
      rw [wdStep_fixed_point]
      norm_num [jLt, JsNum.ltB, jAbs, JsNum.absJ, JsNum.sub, JsNum.add, JsNum.neg]
    have h := claim7_loop_bounded_warns.2 1 1 5 [1, 2] [1, 2] 2 0 (jN 1) (jN 0)
      false hc
    rw [h]
    norm_num

theorem buildDict_replicate_aux {κ : Type} [DecidableEq κ] (c : κ) :
    ∀ (t : List ℚ) (acc : List ℚ),
      ((List.replicate t.length c).zip t).foldl
        (fun d pr => addToGroup pr.1 pr.2 d) [(c, acc)] = [(c, acc ++ t)] := by
  intro t
  induction t with
  | nil => intro acc; simp
  | cons v tl ih =>
      intro acc
      simp only [List.length_cons, List.replicate_succ, List.zip_cons_cons,
        List.foldl_cons]
      have hstep : addToGroup c v [(c, acc)] = [(c, acc ++ [v])] := by
        simp [addToGroup]
      rw [hstep, ih (acc ++ [v])]
      simp

theorem buildDict_replicate {κ : Type} [DecidableEq κ] (c : κ) (vs : List ℚ)
    (h : vs ≠ []) :
    buildDict (List.replicate vs.length c) vs = [(c, vs)] := by
  cases vs with
  | nil => exact absurd rfl h
  | cons v t =>
      simp only [buildDict, List.length_cons, List.replicate_succ,
        List.zip_cons_cons, List.foldl_cons]
      have hstep : addToGroup c v ([] : List (κ × List ℚ)) = [(c, [v])] := by
        simp [addToGroup]
      rw [hstep, buildDict_replicate_aux c t [v]]
      simp

theorem anova_single_level_nan {κ : Type} [DecidableEq κ] (c : κ)
    (values : List ℚ) (h : values ≠ []) :
    ∃ t, OneFactorAnova.calculate (List.replicate values.length c) values =
        Except.ok t ∧ t.mst = JsNum.nan ∧ t.f = JsNum.nan := by
  have hdict := buildDict_replicate c values h
  have hn : ((values.length : ℚ)) ≠ 0 := by
    simpa using List.length_pos.mpr h |>.ne'
  simp only [OneFactorAnova.calculate, hdict, List.length_replicate, ne_eq,
    not_true_eq_false, if_false, ite_not]
  refine ⟨_, rfl, ?_, ?_⟩
  · show JsNum.div _ _ = JsNum.nan
    simp [JsNum.div, JsNum.sub, JsNum.add, JsNum.neg, hn, sub_self]
  · show JsNum.div _ _ = JsNum.nan
    simp [JsNum.div, JsNum.sub, JsNum.add, JsNum.neg, hn, sub_self]

theorem varianceWith_single_level_nan {κ : Type} [DecidableEq κ]
    (sqrtJQ : JsNum ℚ → JsNum ℚ) (chisqInv : JsNum ℚ → JsNum ℚ → JsNum ℚ)
    (useSqrtF : Bool) (c : κ) (values : List ℚ) (numLevels alpha : ℚ)
    (h : values ≠ []) :
    ∃ r, OneFactorVarianceAnalysis.calculateWith sqrtJQ chisqInv useSqrtF
        (List.replicate values.length c) values numLevels alpha = Except.ok r ∧
      r.vB = JsNum.nan ∧ r.dfWL = JsNum.nan := by
  obtain ⟨t, ht, hmst, hf⟩ := anova_single_level_nan c values h
  simp only [OneFactorVarianceAnalysis.calculateWith, ht]
  refine ⟨_, rfl, ?_, ?_⟩
  · show jMax (jN 0) (jDiv (jSub t.mst t.mse) _) = JsNum.nan
    simp [hmst, JsNum.maxJ]
  · show JsNum.div _ _ = JsNum.nan
    simp [hmst, jSq]

/-- C10: when all measurements share a single factor level, neither
OneFactorAnova.calculate nor OneFactorVarianceAnalysis.calculate (in
either revision) throws; the divisions mst = sst/(p-1) and the
Satterthwaite ratio are unguarded, so mst, f, vB and the Satterthwaite
degrees of freedom come back NaN rather than an error being raised. -/
theorem claim10_single_level_gives_nan_not_error :
    ∀ {κ : Type} [DecidableEq κ] (sqrtJQ : JsNum ℚ → JsNum ℚ)
      (chisqInv : JsNum ℚ → JsNum ℚ → JsNum ℚ) (c : κ) (values : List ℚ)
      (numLevels alpha : ℚ), values ≠ [] →
      (∃ t, OneFactorAnova.calculate (List.replicate values.length c) values =
          Except.ok t ∧ t.mst = JsNum.nan ∧ t.f = JsNum.nan) ∧
      (∃ r, OneFactorVarianceAnalysis.calculateA sqrtJQ chisqInv
          (List.replicate values.length c) values numLevels alpha = Except.ok r ∧
        r.vB = JsNum.nan ∧ r.dfWL = JsNum.nan) ∧
      (∃ r, OneFactorVarianceAnalysis.calculateB sqrtJQ chisqInv
          (List.replicate values.length c) values numLevels alpha = Except.ok r ∧
        r.vB = JsNum.nan ∧ r.dfWL = JsNum.nan) := by
  intro κ _ sqrtJQ chisqInv c values numLevels alpha h
  exact ⟨anova_single_level_nan c values h,
    varianceWith_single_level_nan sqrtJQ chisqInv true c values numLevels alpha h,
    varianceWith_single_level_nan sqrtJQ chisqInv false c values numLevels alpha h⟩

/-- C10 witness: three observations on one level, evaluated with the
identity stand-ins for the external square root and chi-square
quantile. -/
theorem claim10_witness :
    ([(1 : ℚ), 2, 3] ≠ []) ∧
    ((∃ t, OneFactorAnova.calculate
          (List.replicate ([(1 : ℚ), 2, 3]).length (0 : ℕ)) [1, 2, 3] =
          Except.ok t ∧ t.mst = JsNum.nan ∧ t.f = JsNum.nan) ∧
      (∃ r, OneFactorVarianceAnalysis.calculateA (fun v => v) (fun _ df => df)
          (List.replicate ([(1 : ℚ), 2, 3]).length (0 : ℕ)) [1, 2, 3] 3 (1 / 20) =
          Except.ok r ∧ r.vB = JsNum.nan ∧ r.dfWL = JsNum.nan) ∧
      (∃ r, OneFactorVarianceAnalysis.calculateB (fun v => v) (fun _ df => df)
          (List.replicate ([(1 : ℚ), 2, 3]).length (0 : ℕ)) [1, 2, 3] 3 (1 / 20) =
          Except.ok r ∧ r.vB = JsNum.nan ∧ r.dfWL = JsNum.nan)) :=
  ⟨by simp, claim10_single_level_gives_nan_not_error (fun v => v) (fun _ df => df)
    0 [1, 2, 3] 3 (1 / 20) (by simp)⟩

/-- C9: on identical inputs and with the same external chi-square
quantile, the part_003 revision's verification factors are exactly the
square root of the part_004 revision's factors (fRepeatability and
fWL alike), and the two revisions' results genuinely differ: at a
balanced two-group input with a chi-square oracle returning 8 the
factors are 2 versus 4, so getUVLRepeatability and getUVLWL also
disagree between revisions. -/
theorem claim9_revisions_differ_by_sqrt :
    (∀ (sqrtJQ : JsNum ℚ → JsNum ℚ) (chisqInv : JsNum ℚ → JsNum ℚ → JsNum ℚ)
      {κ : Type} [DecidableEq κ] (fa : List κ) (vs : List ℚ) (nl alpha : ℚ),
      Except.map (fun r => r.fRepeatability)
          (OneFactorVarianceAnalysis.calculateA sqrtJQ chisqInv fa vs nl alpha) =
        Except.map (fun r => sqrtJQ r.fRepeatability)
          (OneFactorVarianceAnalysis.calculateB sqrtJQ chisqInv fa vs nl alpha) ∧
      Except.map (fun r => r.fWL)
          (OneFactorVarianceAnalysis.calculateA sqrtJQ chisqInv fa vs nl alpha) =
        Except.map (fun r => sqrtJQ r.fWL)
          (OneFactorVarianceAnalysis.calculateB sqrtJQ chisqInv fa vs nl alpha))
    ∧ (Except.map (fun r => r.fRepeatability)
          (OneFactorVarianceAnalysis.calculateA (fun _ => jN 2) (fun _ _ => jN 8)
            [0, 0, 1, 1] [1, 2, 3, 4] 1 (1 / 20)) ≠
        Except.map (fun r => r.fRepeatability)
          (OneFactorVarianceAnalysis.calculateB (fun _ => jN 2) (fun _ _ => jN 8)
            [0, 0, 1, 1] [1, 2, 3, 4] 1 (1 / 20)))
    ∧ (OneFactorVarianceAnalysis.getUVLRepeatabilityA (fun _ => jN 2)
          (fun _ _ => jN 8) [0, 0, 1, 1] [1, 2, 3, 4] 1 (1 / 20) 1 ≠
        OneFactorVarianceAnalysis.getUVLRepeatabilityB (fun _ => jN 2)
          (fun _ _ => jN 8) [0, 0, 1, 1] [1, 2, 3, 4] 1 (1 / 20) 1)
    ∧ (OneFactorVarianceAnalysis.getUVLWLA (fun _ => jN 2)
          (fun _ _ => jN 8) [0, 0, 1, 1] [1, 2, 3, 4] 1 (1 / 20) 1 ≠
        OneFactorVarianceAnalysis.getUVLWLB (fun _ => jN 2)
          (fun _ _ => jN 8) [0, 0, 1, 1] [1, 2, 3, 4] 1 (1 / 20) 1) := by
  have hdict : buildDict [0, 0, 1, 1] [(1 : ℚ), 2, 3, 4] =
      [(0, [1, 2]), (1, [3, 4])] := by
    norm_num [buildDict, addToGroup]
  refine ⟨?_, ?_, ?_, ?_⟩
  · intro sqrtJQ chisqInv κ _ fa vs nl alpha
    unfold OneFactorVarianceAnalysis.calculateA OneFactorVarianceAnalysis.calculateB
      OneFactorVarianceAnalysis.calculateWith
    cases h : OneFactorAnova.calculate fa vs <;> simp [h, Except.map]
  · norm_num [OneFactorVarianceAnalysis.calculateA,
      OneFactorVarianceAnalysis.calculateB,
      OneFactorVarianceAnalysis.calculateWith, OneFactorAnova.calculate, hdict,
      Except.map, jDiv, JsNum.div]
  · norm_num [OneFactorVarianceAnalysis.getUVLRepeatabilityA,
      OneFactorVarianceAnalysis.getUVLRepeatabilityB,
      OneFactorVarianceAnalysis.calculateA, OneFactorVarianceAnalysis.calculateB,
      OneFactorVarianceAnalysis.calculateWith, OneFactorAnova.calculate, hdict,
      Except.map, jDiv, JsNum.div, jMul, JsNum.mul]
  · norm_num [OneFactorVarianceAnalysis.getUVLWLA,
      OneFactorVarianceAnalysis.getUVLWLB,
      OneFactorVarianceAnalysis.calculateA, OneFactorVarianceAnalysis.calculateB,
      OneFactorVarianceAnalysis.calculateWith, OneFactorAnova.calculate, hdict,
      Except.map, jDiv, JsNum.div, jMul, JsNum.mul]

/-- C3: whenever the derived design counts numDays, numRuns (maximum
runs per day) and numReps (maximum cell size) do not multiply out to
the observation count, TwoFactorNestedAnova.calculate and
TwoFactorVarianceAnalysis.calculate stop with the unbalanced-design
error; the check precedes every sum-of-squares computation, so the
error result carries no partial table. -/
theorem claim3_unbalanced_design_throws :
    ∀ {κA κB : Type} [DecidableEq κA] [DecidableEq κB]
      (sqrtJQ : JsNum ℚ → JsNum ℚ) (chisqInv : JsNum ℚ → JsNum ℚ → JsNum ℚ)
      (fa : List κA) (fb : List κB) (vs : List ℚ) (alpha : ℚ),
      fa.length = fb.length → fa.length = vs.length →
      (buildNestedDict fa fb vs).length *
          TwoFactorNestedAnova.maxRuns (buildNestedDict fa fb vs) *
          TwoFactorNestedAnova.maxReps (buildNestedDict fa fb vs) ≠ vs.length →
      TwoFactorNestedAnova.calculate fa fb vs =
        Except.error AnovaError.unbalancedDesign ∧
      TwoFactorVarianceAnalysis.calculate sqrtJQ chisqInv fa fb vs alpha =
        Except.error AnovaError.unbalancedDesign := by
  intro κA κB _ _ sqrtJQ chisqInv fa fb vs alpha hlen1 hlen2 himb
  have hcond : ¬(fa.length ≠ fb.length ∨ fa.length ≠ vs.length) := by
    push_neg
    exact ⟨hlen1, hlen2⟩
  have hcal : TwoFactorNestedAnova.calculate fa fb vs =
      Except.error AnovaError.unbalancedDesign := by
    simp only [TwoFactorNestedAnova.calculate, TwoFactorNestedAnova.mkState,
      TwoFactorNestedAnova.calcFromState, hcond, if_neg, if_pos, himb, ite_not]
    simp [himb]
  refine ⟨hcal, ?_⟩
  simp [TwoFactorVarianceAnalysis.calculate, hcal]

/-- C3 witness: three observations over two days whose derived design
product is 4, not 3. -/
theorem claim3_witness :
    ([0, 0, 1] : List ℕ).length = ([0, 0, 0] : List ℕ).length ∧
    ([0, 0, 1] : List ℕ).length = ([(1 : ℚ), 2, 3]).length ∧
    (buildNestedDict [0, 0, 1] [0, 0, 0] [(1 : ℚ), 2, 3]).length *
        TwoFactorNestedAnova.maxRuns
          (buildNestedDict [0, 0, 1] [0, 0, 0] [(1 : ℚ), 2, 3]) *
        TwoFactorNestedAnova.maxReps
          (buildNestedDict [0, 0, 1] [0, 0, 0] [(1 : ℚ), 2, 3]) ≠
      ([(1 : ℚ), 2, 3]).length ∧
    TwoFactorNestedAnova.calculate [0, 0, 1] [0, 0, 0] [(1 : ℚ), 2, 3] =
      Except.error AnovaError.unbalancedDesign ∧
    TwoFactorVarianceAnalysis.calculate (fun v => v) (fun _ df => df)
      [0, 0, 1] [0, 0, 0] [(1 : ℚ), 2, 3] (1 / 20) =
      Except.error AnovaError.unbalancedDesign := by
  have himb : (buildNestedDict [0, 0, 1] [0, 0, 0] [(1 : ℚ), 2, 3]).length *
      TwoFactorNestedAnova.maxRuns
        (buildNestedDict [0, 0, 1] [0, 0, 0] [(1 : ℚ), 2, 3]) *
      TwoFactorNestedAnova.maxReps
        (buildNestedDict [0, 0, 1] [0, 0, 0] [(1 : ℚ), 2, 3]) ≠
      ([(1 : ℚ), 2, 3]).length := by
    norm_num [buildNestedDict, addToGroup2, addToGroup,
      TwoFactorNestedAnova.maxRuns, TwoFactorNestedAnova.maxReps]
  have h := @claim3_unbalanced_design_throws ℕ ℕ _ _ (fun v => v)
    (fun _ df => df) [0, 0, 1] [0, 0, 0] [(1 : ℚ), 2, 3] (1 / 20) rfl rfl himb
  exact ⟨rfl, rfl, himb, h.1, h.2⟩

theorem sum_sq_dev_identity (a : ℚ) (t : List ℚ) :
    (t.map (fun x => (a - x) * (a - x))).sum =
      (t.length : ℚ) * (a * a) - 2 * a * t.sum + (t.map (fun x => x * x)).sum := by
  induction t with
  | nil => simp
  | cons b tl ih =>
      simp only [List.map_cons, List.sum_cons, List.length_cons, ih]
      push_cast
      ring

theorem sq_sum_le_length_mul_sum_sq (l : List ℚ) :
    l.sum * l.sum ≤ (l.length : ℚ) * (l.map (fun x => x * x)).sum := by
  induction l with
  | nil => simp
  | cons a t ih =>
      simp only [List.sum_cons, List.map_cons, List.length_cons]
      have hdev : (0 : ℚ) ≤ (t.map (fun x => (a - x) * (a - x))).sum :=
        List.sum_nonneg (by
          intro q hq
          obtain ⟨x, -, rfl⟩ := List.mem_map.mp hq
          exact mul_self_nonneg _)
      rw [sum_sq_dev_identity] at hdev
      push_cast
      nlinarith [ih, hdev]

theorem div_sq_sum_le_sum_sq (l : List ℚ) (h : l ≠ []) :
    l.sum * l.sum / (l.length : ℚ) ≤ (l.map (fun x => x * x)).sum := by
  have hpos : (0 : ℚ) < (l.length : ℚ) := by
    exact_mod_cast List.length_pos.mpr h
  rw [div_le_iff₀ hpos]
  calc l.sum * l.sum ≤ (l.length : ℚ) * (l.map (fun x => x * x)).sum :=
        sq_sum_le_length_mul_sum_sq l
    _ = (l.map (fun x => x * x)).sum * (l.length : ℚ) := by ring

theorem sum_sq_le_sq_sum_of_nonneg (l : List ℚ) (h : ∀ x ∈ l, 0 ≤ x) :
    (l.map (fun x => x * x)).sum ≤ l.sum * l.sum := by
  induction l with
  | nil => simp
  | cons a t ih =>
      simp only [List.map_cons, List.sum_cons]
      have ha : 0 ≤ a := h a (List.mem_cons_self a t)
      have ht : ∀ x ∈ t, 0 ≤ x := fun x hx => h x (List.mem_cons_of_mem a hx)
      have hT : (0 : ℚ) ≤ t.sum := List.sum_nonneg ht
      nlinarith [ih ht]

theorem sum_sq_lt_sq_sum (l : List ℚ) (h1 : ∀ x ∈ l, 1 ≤ x)
    (h2 : 2 ≤ l.length) :
    (l.map (fun x => x * x)).sum < l.sum * l.sum := by
  cases l with
  | nil => simp at h2
  | cons a t =>
      cases t with
      | nil => simp at h2
      | cons b tt =>
          simp only [List.map_cons, List.sum_cons]
          have ha : 1 ≤ a := h1 a (by simp)
          have hb : 1 ≤ b := h1 b (by simp)
          have htt : ∀ x ∈ tt, 0 ≤ x := fun x hx =>
            le_trans (by norm_num) (h1 x (by simp [hx]))
          have hT : (0 : ℚ) ≤ tt.sum := List.sum_nonneg htt
          have hle : ((b :: tt).map (fun x => x * x)).sum ≤
              (b :: tt).sum * (b :: tt).sum :=
            sum_sq_le_sq_sum_of_nonneg (b :: tt) (fun x hx =>
              le_trans (by norm_num) (h1 x (List.mem_cons_of_mem a hx)))
          simp only [List.map_cons, List.sum_cons] at hle
          nlinarith

theorem addToGroup_nonempty {κ : Type} [DecidableEq κ] (k : κ) (v : ℚ) :
    ∀ (d : List (κ × List ℚ)), (∀ pr ∈ d, pr.2 ≠ []) →
      ∀ pr ∈ addToGroup k v d, pr.2 ≠ [] := by
  intro d
  induction d with
  | nil =>
      intro _ pr hpr
      simp only [addToGroup, List.mem_singleton] at hpr
      subst hpr
      simp
  | cons hd tl ih =>
      intro hinv pr hpr
      obtain ⟨k0, l⟩ := hd
      simp only [addToGroup] at hpr
      by_cases hk : k0 = k
      · rw [if_pos hk] at hpr
        rcases List.mem_cons.mp hpr with h | h
        · subst h
          simp
        · exact hinv pr (List.mem_cons_of_mem _ h)
      · rw [if_neg hk] at hpr
        rcases List.mem_cons.mp hpr with h | h
        · subst h
          exact hinv (k0, l) (List.mem_cons_self _ _)
        · exact ih (fun q hq => hinv q (List.mem_cons_of_mem _ hq)) pr h

theorem buildDict_groups_nonempty {κ : Type} [DecidableEq κ]
    (ks : List κ) (vs : List ℚ) :
    ∀ pr ∈ buildDict ks vs, pr.2 ≠ [] := by
  have haux : ∀ (ps : List (κ × ℚ)) (d : List (κ × List ℚ)),
      (∀ pr ∈ d, pr.2 ≠ []) →
      ∀ pr ∈ ps.foldl (fun d pr => addToGroup pr.1 pr.2 d) d, pr.2 ≠ [] := by
    intro ps
    induction ps with
    | nil => intro d hd; simpa using hd
    | cons hd tl ih =>
        intro d hinv
        simp only [List.foldl_cons]
        exact ih _ (addToGroup_nonempty hd.1 hd.2 d hinv)
  exact haux (ks.zip vs) [] (by simp)

theorem addToGroup_flatten_perm {κ : Type} [DecidableEq κ] (k : κ) (v : ℚ) :
    ∀ (d : List (κ × List ℚ)),
      List.Perm ((addToGroup k v d).map (fun pr => pr.2)).flatten
        ((d.map (fun pr => pr.2)).flatten ++ [v]) := by
  intro d
  induction d with
  | nil => simp [addToGroup]
  | cons hd tl ih =>
      obtain ⟨k0, l⟩ := hd
      by_cases hk : k0 = k
      · simp only [addToGroup, if_pos hk, List.map_cons, List.flatten_cons]
        rw [List.append_assoc, List.append_assoc]
        exact (List.perm_append_comm).append_left l
      · simp only [addToGroup, if_neg hk, List.map_cons, List.flatten_cons]
        rw [List.append_assoc]
        exact ih.append_left l

theorem foldl_addToGroup_flatten_perm {κ : Type} [DecidableEq κ] :
    ∀ (ps : List (κ × ℚ)) (d : List (κ × List ℚ)),
      List.Perm (((ps.foldl (fun d pr => addToGroup pr.1 pr.2 d) d).map
          (fun pr => pr.2)).flatten)
        ((d.map (fun pr => pr.2)).flatten ++ ps.map Prod.snd) := by
  intro ps
  induction ps with
  | nil => intro d; simp
  | cons hd tl ih =>
      intro d
      simp only [List.foldl_cons, List.map_cons]
      refine (ih _).trans ?_
      have h2 := (addToGroup_flatten_perm hd.1 hd.2 d).append_right (tl.map Prod.snd)
      rw [List.append_assoc] at h2
      simpa using h2

theorem buildDict_flatten_perm {κ : Type} [DecidableEq κ]
    (ks : List κ) (vs : List ℚ) (hlen : ks.length = vs.length) :
    List.Perm ((buildDict ks vs).map (fun pr => pr.2)).flatten vs := by
  have h := foldl_addToGroup_flatten_perm (ks.zip vs) []
  simpa [buildDict, List.map_snd_zip ks vs (le_of_eq hlen.symm)] using h

theorem oneFactor_components_nonneg {κ : Type} [DecidableEq κ]
    (sqrtJQ : JsNum ℚ → JsNum ℚ) (chisqInv : JsNum ℚ → JsNum ℚ → JsNum ℚ)
    (fa : List κ) (vs : List ℚ) (nl alpha : ℚ)
    (hlen : fa.length = vs.length)
    (hp : 2 ≤ (buildDict fa vs).length)
    (hpn : (buildDict fa vs).length < vs.length) :
    ∃ r, OneFactorVarianceAnalysis.calculateA sqrtJQ chisqInv fa vs nl alpha =
        Except.ok r ∧
      (∃ q, 0 ≤ q ∧ r.vE = jN q) ∧ (∃ q, 0 ≤ q ∧ r.vB = jN q) := by
  have hne := buildDict_groups_nonempty fa vs
  have hperm := buildDict_flatten_perm fa vs hlen
  -- total count and totals transported through the grouping
  have hsizes : ((buildDict fa vs).map (fun pr => pr.2.length)).sum = vs.length := by
    have h1 := hperm.length_eq
    rw [List.length_flatten] at h1
    simpa [List.map_map, Function.comp] using h1
  have hsum_sq : ((buildDict fa vs).map (fun pr =>
      (pr.2.map (fun v => v * v)).sum)).sum = (vs.map (fun v => v * v)).sum := by
    have h1 := (hperm.map (fun v => v * v)).sum_eq
    rw [List.map_flatten, List.sum_flatten] at h1
    simpa [List.map_map, Function.comp] using h1
  -- numeric positivity facts
  have hNnat : 0 < vs.length := lt_of_le_of_lt (Nat.zero_le _) hpn
  have hN0 : ((vs.length : ℚ)) ≠ 0 := by exact_mod_cast hNnat.ne'
  have hp1 : ((0 : ℚ)) < ((buildDict fa vs).length : ℚ) - 1 := by
    have : (2 : ℚ) ≤ ((buildDict fa vs).length : ℚ) := by exact_mod_cast hp
    linarith
  have hp1ne : (((buildDict fa vs).length : ℚ) - 1) ≠ 0 := hp1.ne'
  have hNp : ((0 : ℚ)) < (vs.length : ℚ) - ((buildDict fa vs).length : ℚ) := by
    have : ((buildDict fa vs).length : ℚ) < (vs.length : ℚ) := by exact_mod_cast hpn
    linarith
  have hNpne : ((vs.length : ℚ) - ((buildDict fa vs).length : ℚ)) ≠ 0 := hNp.ne'
  -- the error sum of squares is nonnegative
  have hsse : ((buildDict fa vs).map (fun pr =>
      pr.2.sum * pr.2.sum / (pr.2.length : ℚ))).sum ≤
      (vs.map (fun v => v * v)).sum := by
    rw [← hsum_sq]
    exact List.sum_le_sum (fun pr hpr => div_sq_sum_le_sum_sq pr.2 (hne pr hpr))
  -- the group-size sum of squares is strictly below the squared total
  have hsn2 : ((buildDict fa vs).map (fun pr =>
      ((pr.2.length : ℚ)) * ((pr.2.length : ℚ)))).sum <
      ((vs.length : ℚ)) * ((vs.length : ℚ)) := by
    have h := sum_sq_lt_sq_sum ((buildDict fa vs).map (fun pr => ((pr.2.length : ℚ))))
      (by
        intro x hx
        obtain ⟨pr, hpr, rfl⟩ := List.mem_map.mp hx
        have : 0 < pr.2.length := List.length_pos.mpr (hne pr hpr)
        exact_mod_cast this)
      (by simpa using hp)
    rw [List.map_map] at h
    have hsumcast : ((buildDict fa vs).map
        (fun pr => ((pr.2.length : ℚ)))).sum = ((vs.length : ℚ)) := by
      rw [← hsizes]
      push_cast
      rw [List.map_map]
      rfl
    rw [hsumcast] at h
    simpa [Function.comp] using h
  -- positivity of n0
  have hn0pos : (0 : ℚ) <
      (((vs.length : ℚ)) - ((buildDict fa vs).map (fun pr =>
        ((pr.2.length : ℚ)) * ((pr.2.length : ℚ)))).sum / ((vs.length : ℚ))) /
        (((buildDict fa vs).length : ℚ) - 1) := by
    apply div_pos _ hp1
    rw [sub_pos, div_lt_iff₀ (by exact_mod_cast hNnat)]
    exact hsn2
  have hn0ne : ((((vs.length : ℚ)) - ((buildDict fa vs).map (fun pr =>
      ((pr.2.length : ℚ)) * ((pr.2.length : ℚ)))).sum / ((vs.length : ℚ))) /
        (((buildDict fa vs).length : ℚ) - 1)) ≠ 0 := hn0pos.ne'
  simp only [OneFactorVarianceAnalysis.calculateA,
    OneFactorVarianceAnalysis.calculateWith, OneFactorAnova.calculate, hlen,
    ne_eq, not_true_eq_false, if_false, ite_not]
  refine ⟨_, rfl, ?_, ?_⟩
  · simp only [jDiv, jSub, jN, JsNum.div, hN0, hNpne, if_false,
      JsNum.sub_num_num, ite_false]
    refine ⟨_, ?_, rfl⟩
    apply div_nonneg _ hNp.le
    have he : ((vs.map (fun v => v * v)).sum -
        vs.sum * vs.sum / ((vs.length : ℚ)) -
        (((buildDict fa vs).map (fun pr =>
          pr.2.sum * pr.2.sum / ((pr.2.length : ℚ)))).sum -
          vs.sum * vs.sum / ((vs.length : ℚ)))) =
        (vs.map (fun v => v * v)).sum -
          ((buildDict fa vs).map (fun pr =>
            pr.2.sum * pr.2.sum / ((pr.2.length : ℚ)))).sum := by
      ring
    rw [he]
    linarith [hsse]
  · simp only [jDiv, jSub, jMax, jN, JsNum.div, hN0, hNpne, hp1ne, hn0ne,
      if_false, JsNum.sub_num_num, ite_false, JsNum.maxJ]
    refine ⟨_, ?_, rfl⟩
    exact le_max_left 0 _

theorem foldl_add_num {γ : Type} (f : γ → ℚ) (l : List γ) :
    ∀ acc : ℚ, List.foldl JsNum.add (jN acc) (l.map (fun x => jN (f x))) =
      jN (acc + (l.map f).sum) := by
  induction l with
  | nil => intro acc; simp [jN]
  | cons a t ih =>
      intro acc
      simp only [List.map_cons, List.foldl_cons, JsNum.add_num_num, List.sum_cons]
      rw [ih (acc + f a)]
      ring_nf

theorem sumJ_map_num {γ : Type} (f : γ → ℚ) (l : List γ) :
    jSum (l.map (fun x => jN (f x))) = jN ((l.map f).sum) := by
  have h := foldl_add_num f l 0
  simpa [jSum, JsNum.sumJ] using h

theorem foldl_add_num_of_mem (l : List (JsNum ℚ)) :
    ∀ acc : ℚ, (∀ x ∈ l, ∃ q, x = jN q) →
      ∃ q, List.foldl JsNum.add (jN acc) l = jN q := by
  induction l with
  | nil => intro acc _; exact ⟨acc, rfl⟩
  | cons a t ih =>
      intro acc h
      obtain ⟨qa, rfl⟩ := h a (List.mem_cons_self a t)
      simp only [List.foldl_cons, JsNum.add_num_num]
      exact ih (acc + qa) (fun x hx => h x (List.mem_cons_of_mem _ hx))

theorem sumJ_num_of_mem (l : List (JsNum ℚ)) (h : ∀ x ∈ l, ∃ q, x = jN q) :
    ∃ q, jSum l = jN q :=
  foldl_add_num_of_mem l 0 h

theorem foldl_add_nonneg_of_mem (l : List (JsNum ℚ)) :
    ∀ acc : ℚ, 0 ≤ acc → (∀ x ∈ l, ∃ q, 0 ≤ q ∧ x = jN q) →
      ∃ q, 0 ≤ q ∧ List.foldl JsNum.add (jN acc) l = jN q := by
  induction l with
  | nil => intro acc hacc _; exact ⟨acc, hacc, rfl⟩
  | cons a t ih =>
      intro acc hacc h
      obtain ⟨qa, hqa, rfl⟩ := h a (List.mem_cons_self a t)
      simp only [List.foldl_cons, JsNum.add_num_num]
      exact ih (acc + qa) (by linarith) (fun x hx => h x (List.mem_cons_of_mem _ hx))

theorem sumJ_nonneg_of_mem (l : List (JsNum ℚ))
    (h : ∀ x ∈ l, ∃ q, 0 ≤ q ∧ x = jN q) :
    ∃ q, 0 ≤ q ∧ jSum l = jN q :=
  foldl_add_nonneg_of_mem l 0 le_rfl h

theorem addToGroup_ne_nil {κ : Type} [DecidableEq κ] (k : κ) (v : ℚ)
    (d : List (κ × List ℚ)) : addToGroup k v d ≠ [] := by
  cases d with
  | nil => simp [addToGroup]
  | cons hd tl =>
      obtain ⟨k0, l⟩ := hd
      simp only [addToGroup]
      split_ifs <;> simp

theorem addToGroup2_invariant {κA κB : Type} [DecidableEq κA] [DecidableEq κB]
    (ka : κA) (kb : κB) (v : ℚ) :
    ∀ (d : List (κA × List (κB × List ℚ))),
      (∀ day ∈ d, day.2 ≠ [] ∧ ∀ c ∈ day.2, c.2 ≠ []) →
      ∀ day ∈ addToGroup2 ka kb v d, day.2 ≠ [] ∧ ∀ c ∈ day.2, c.2 ≠ [] := by
  intro d
  induction d with
  | nil =>
      intro _ day hday
      simp only [addToGroup2, List.mem_singleton] at hday
      subst hday
      refine ⟨by simp, ?_⟩
      intro c hc
      simp only [List.mem_singleton] at hc
      subst hc
      simp
  | cons hd tl ih =>
      intro hinv day hday
      obtain ⟨k0, runs⟩ := hd
      simp only [addToGroup2] at hday
      by_cases hk : k0 = ka
      · rw [if_pos hk] at hday
        rcases List.mem_cons.mp hday with h | h
        · subst h
          refine ⟨addToGroup_ne_nil kb v runs, ?_⟩
          exact addToGroup_nonempty kb v runs
            (fun c hc => (hinv (k0, runs) (List.mem_cons_self _ _)).2 c hc)
        · exact hinv day (List.mem_cons_of_mem _ h)
      · rw [if_neg hk] at hday
        rcases List.mem_cons.mp hday with h | h
        · subst h
          exact hinv (k0, runs) (List.mem_cons_self _ _)
        · exact ih (fun q hq => hinv q (List.mem_cons_of_mem _ hq)) day h

theorem buildNestedDict_invariant {κA κB : Type} [DecidableEq κA] [DecidableEq κB]
    (fa : List κA) (fb : List κB) (vs : List ℚ) :
    ∀ day ∈ buildNestedDict fa fb vs, day.2 ≠ [] ∧ ∀ c ∈ day.2, c.2 ≠ [] := by
  have haux : ∀ (ps : List ((κA × κB) × ℚ)) (d : List (κA × List (κB × List ℚ))),
      (∀ day ∈ d, day.2 ≠ [] ∧ ∀ c ∈ day.2, c.2 ≠ []) →
      ∀ day ∈ ps.foldl (fun d pr => addToGroup2 pr.1.1 pr.1.2 pr.2 d) d,
        day.2 ≠ [] ∧ ∀ c ∈ day.2, c.2 ≠ [] := by
    intro ps
    induction ps with
    | nil => intro d hd; simpa using hd
    | cons hd tl ih =>
        intro d hinv
        simp only [List.foldl_cons]
        exact ih _ (addToGroup2_invariant hd.1.1 hd.1.2 hd.2 d hinv)
  exact haux ((fa.zip fb).zip vs) [] (by simp)

theorem buildNestedDict_nil {κA κB : Type} [DecidableEq κA] [DecidableEq κB]
    (fa : List κA) (fb : List κB) :
    buildNestedDict fa fb ([] : List ℚ) = [] := by
  simp [buildNestedDict]

theorem foldl_add_num_of_finite (l : List (JsNum ℚ)) :
    ∀ acc : ℚ, (∀ x ∈ l, x.finite = true) →
      ∃ q, List.foldl JsNum.add (jN acc) l = jN q := by
  induction l with
  | nil => intro acc _; exact ⟨acc, rfl⟩
  | cons a t ih =>
      intro acc h
      have ha := h a (List.mem_cons_self a t)
      cases a with
      | num qa =>
          simp only [List.foldl_cons, JsNum.add_num_num]
          exact ih (acc + qa) (fun x hx => h x (List.mem_cons_of_mem _ hx))
      | pinf => simp [JsNum.finite] at ha
      | ninf => simp [JsNum.finite] at ha
      | nan => simp [JsNum.finite] at ha

theorem sumJ_num_of_finite (l : List (JsNum ℚ)) (h : ∀ x ∈ l, x.finite = true) :
    ∃ q, jSum l = jN q :=
  foldl_add_num_of_finite l 0 h

open TwoFactorNestedAnova in
theorem twoFactor_components_nonneg {κA κB : Type} [DecidableEq κA] [DecidableEq κB]
    (sqrtJQ : JsNum ℚ → JsNum ℚ) (chisqInv : JsNum ℚ → JsNum ℚ → JsNum ℚ)
    (fa : List κA) (fb : List κB) (vs : List ℚ) (alpha : ℚ)
    (hlen1 : fa.length = fb.length) (hlen2 : fa.length = vs.length)
    (hbal : (buildNestedDict fa fb vs).length *
        maxRuns (buildNestedDict fa fb vs) *
        maxReps (buildNestedDict fa fb vs) = vs.length)
    (hdfA : 2 ≤ (buildNestedDict fa fb vs).length)
    (hdfB : 1 ≤ dfBOf (buildNestedDict fa fb vs))
    (hdfE : 1 ≤ dfEOf (buildNestedDict fa fb vs)) :
    ∃ r, TwoFactorVarianceAnalysis.calculate sqrtJQ chisqInv fa fb vs alpha =
        Except.ok r ∧
      (∃ q, 0 ≤ q ∧ r.vE = jN q) ∧ (∃ q, 0 ≤ q ∧ r.vB = jN q) ∧
      (∃ q, 0 ≤ q ∧ r.vA = jN q) ∧ (∃ q, 0 ≤ q ∧ r.vT = jN q) := by
  have hinv := buildNestedDict_invariant fa fb vs
  have hvs : vs ≠ [] := by
    intro h
    rw [h, buildNestedDict_nil] at hdfA
    simp at hdfA
  have hNpos : 0 < vs.length := List.length_pos.mpr hvs
  have hN0 : ((vs.length : ℚ)) ≠ 0 := by exact_mod_cast hNpos.ne'
  have hnE : maxReps (buildNestedDict fa fb vs) ≠ 0 := by
    intro h
    rw [h, Nat.mul_zero] at hbal
    omega
  have hnB : maxRuns (buildNestedDict fa fb vs) ≠ 0 := by
    intro h
    rw [h, Nat.mul_zero, Nat.zero_mul] at hbal
    omega
  have hnEq : ((maxReps (buildNestedDict fa fb vs) : ℚ)) ≠ 0 :=
    Nat.cast_ne_zero.mpr hnE
  have hprod : (((maxRuns (buildNestedDict fa fb vs) : ℚ)) *
      ((maxReps (buildNestedDict fa fb vs) : ℚ))) ≠ 0 :=
    mul_ne_zero (Nat.cast_ne_zero.mpr hnB) hnEq
  have hdfAq : (((buildNestedDict fa fb vs).length : ℚ) - 1) ≠ 0 := by
    have : (2 : ℚ) ≤ ((buildNestedDict fa fb vs).length : ℚ) := by exact_mod_cast hdfA
    intro h
    linarith
  have hdfBpos : (0 : ℚ) < dfBOf (buildNestedDict fa fb vs) := by linarith
  have hdfEpos : (0 : ℚ) < dfEOf (buildNestedDict fa fb vs) := by linarith
  have hdfBne := hdfBpos.ne'
  have hdfEne := hdfEpos.ne'
  -- the three sums of squares are finite, and SSE is nonnegative
  have hgm : jDiv (jN vs.sum) (jN ((vs.length : ℚ))) =
      jN (vs.sum / ((vs.length : ℚ))) :=
    JsNum.div_num_num_of_ne _ _ hN0
  have hsst : ∃ q, sstOf vs (jDiv (jN vs.sum) (jN ((vs.length : ℚ)))) = jN q := by
    apply sumJ_num_of_mem
    intro x hx
    obtain ⟨v, hv, rfl⟩ := List.mem_map.mp hx
    refine ⟨(v - vs.sum / ((vs.length : ℚ))) * (v - vs.sum / ((vs.length : ℚ))), ?_⟩
    rw [hgm]
    simp
  have hssa : ∃ q, ssaOf (buildNestedDict fa fb vs)
      (jDiv (jN vs.sum) (jN ((vs.length : ℚ)))) = jN q := by
    apply sumJ_num_of_finite
    intro x hx
    obtain ⟨day, hday, rfl⟩ := List.mem_map.mp hx
    have hruns := (hinv day hday).1
    have hcells := (hinv day hday).2
    have hgvals : ((day.2.map (fun c => c.2)).flatten) ≠ [] := by
      cases hd2 : day.2 with
      | nil => exact absurd hd2 hruns
      | cons c t =>
          have hc : c.2 ≠ [] := hcells c (by rw [hd2]; exact List.mem_cons_self _ _)
          simp only [List.map_cons, List.flatten_cons]
          intro happ
          rcases List.append_eq_nil.mp happ with ⟨h1, -⟩
          exact hc h1
    have hglen : (((day.2.map (fun c => c.2)).flatten.length : ℚ)) ≠ 0 := by
      exact_mod_cast (List.length_pos.mpr hgvals).ne'
    dsimp only
    simp at hglen
    simp [JsNum.finite, JsNum.div, JsNum.mul, JsNum.sub, JsNum.add, JsNum.neg,
      hglen, hN0]
  have hsse : ∃ q, 0 ≤ q ∧ sseOf (buildNestedDict fa fb vs) = jN q := by
    apply sumJ_nonneg_of_mem
    intro x hx
    obtain ⟨c, hc, hxc⟩ := List.mem_flatMap.mp hx
    obtain ⟨v, hv, rfl⟩ := List.mem_map.mp hxc
    have hcne : c.2 ≠ [] := by
      obtain ⟨day, hday, hcd⟩ := List.mem_flatMap.mp hc
      exact (hinv day hday).2 c hcd
    have hclen : ((c.2.length : ℚ)) ≠ 0 := by
      exact_mod_cast (List.length_pos.mpr hcne).ne'
    refine ⟨(v - c.2.sum / ((c.2.length : ℚ))) * (v - c.2.sum / ((c.2.length : ℚ))),
      mul_self_nonneg _, ?_⟩
    rw [cellMean]
    simp only [jMul, jSub, jDiv, jN, JsNum.div, hclen, if_false, ite_false,
      JsNum.sub_num_num, JsNum.mul_num_num]
  obtain ⟨qs, hqs⟩ := hsst
  obtain ⟨qa, hqa⟩ := hssa
  obtain ⟨qe, hqe, hqeEq⟩ := hsse
  have hcond : ¬(fa.length ≠ fb.length ∨ fa.length ≠ vs.length) := by
    push_neg
    exact ⟨hlen1, hlen2⟩
  simp only [TwoFactorVarianceAnalysis.calculate, TwoFactorNestedAnova.calculate,
    TwoFactorNestedAnova.mkState, hcond, if_false, ite_not, if_neg,
    not_false_eq_true, TwoFactorNestedAnova.calcFromState, hbal, ne_eq,
    not_true_eq_false]
  refine ⟨_, rfl, ?_, ?_, ?_, ?_⟩
  · rw [hqeEq]
    simp only [jDiv, jN, JsNum.div, hdfEne, if_false, ite_false]
    exact ⟨_, div_nonneg hqe hdfEpos.le, rfl⟩
  · rw [hqs, hqa, hqeEq]
    simp only [jSub, jDiv, jMax, jN, JsNum.sub_num_num, JsNum.div, hdfBne,
      hdfEne, hnEq, if_false, ite_false, JsNum.maxJ]
    exact ⟨_, le_max_left 0 _, rfl⟩
  · rw [hqs, hqa, hqeEq]
    simp only [jSub, jDiv, jMax, jN, JsNum.sub_num_num, JsNum.div, hdfBne,
      hdfAq, hprod, if_false, ite_false, JsNum.maxJ]
    exact ⟨_, le_max_left 0 _, rfl⟩
  · rw [hqs, hqa, hqeEq]
    simp only [jSub, jDiv, jMax, jAdd, jN, JsNum.sub_num_num, JsNum.div,
      hdfBne, hdfEne, hdfAq, hnEq, hprod, if_false, ite_false, JsNum.maxJ,
      JsNum.add_num_num]
    exact ⟨_, add_nonneg (add_nonneg (le_max_left 0 _) (le_max_left 0 _))
      (div_nonneg hqe hdfEpos.le), rfl⟩

/-- C4: corrected. On accepted inputs with n > 2 the variance components
need not be nonnegative numbers (a single-level design already yields a
NaN vB); under the natural non-degeneracy conditions — at least two
factor levels and more observations than levels for the one-factor
analyzer, and a balanced nested design with at least two days and
positive between-run and error degrees of freedom for the two-factor
analyzer — every returned component vE, vB (and vA, vT for the nested
analyzer) is a nonnegative rational. -/
theorem claim4_components_nonneg_nondegenerate :
    (∀ (κ : Type) [DecidableEq κ] (sqrtJQ : JsNum ℚ → JsNum ℚ)
        (chisqInv : JsNum ℚ → JsNum ℚ → JsNum ℚ)
        (fa : List κ) (vs : List ℚ) (nl alpha : ℚ),
      fa.length = vs.length → 2 ≤ (buildDict fa vs).length →
      (buildDict fa vs).length < vs.length →
      ∃ r, OneFactorVarianceAnalysis.calculateA sqrtJQ chisqInv fa vs nl alpha =
          Except.ok r ∧
        (∃ q, 0 ≤ q ∧ r.vE = jN q) ∧ (∃ q, 0 ≤ q ∧ r.vB = jN q)) ∧
    (∀ (κA κB : Type) [DecidableEq κA] [DecidableEq κB]
        (sqrtJQ : JsNum ℚ → JsNum ℚ) (chisqInv : JsNum ℚ → JsNum ℚ → JsNum ℚ)
        (fa : List κA) (fb : List κB) (vs : List ℚ) (alpha : ℚ),
      fa.length = fb.length → fa.length = vs.length →
      (buildNestedDict fa fb vs).length *
          TwoFactorNestedAnova.maxRuns (buildNestedDict fa fb vs) *
          TwoFactorNestedAnova.maxReps (buildNestedDict fa fb vs) = vs.length →
      2 ≤ (buildNestedDict fa fb vs).length →
      1 ≤ TwoFactorNestedAnova.dfBOf (buildNestedDict fa fb vs) →
      1 ≤ TwoFactorNestedAnova.dfEOf (buildNestedDict fa fb vs) →
      ∃ r, TwoFactorVarianceAnalysis.calculate sqrtJQ chisqInv fa fb vs alpha =
          Except.ok r ∧
        (∃ q, 0 ≤ q ∧ r.vE = jN q) ∧ (∃ q, 0 ≤ q ∧ r.vB = jN q) ∧
        (∃ q, 0 ≤ q ∧ r.vA = jN q) ∧ (∃ q, 0 ≤ q ∧ r.vT = jN q)) :=
  ⟨fun _ _ sqrtJQ chisqInv fa vs nl alpha h1 h2 h3 =>
      oneFactor_components_nonneg sqrtJQ chisqInv fa vs nl alpha h1 h2 h3,
    fun _ _ _ _ sqrtJQ chisqInv fa fb vs alpha h1 h2 h3 h4 h5 h6 =>
      twoFactor_components_nonneg sqrtJQ chisqInv fa fb vs alpha h1 h2 h3 h4 h5 h6⟩

/-- C4 counterexample: the single-level input factorA = [7,7,7],
values = [1,2,4] has n = 3 > 2 and is accepted by
OneFactorVarianceAnalysis.calculate, yet the returned vB is NaN, which
is not a nonnegative number. -/
theorem claim4_single_level_vB_not_nonneg :
    ∃ r, OneFactorVarianceAnalysis.calculateA (fun v => v) (fun _ df => df)
        [(7 : ℕ), 7, 7] [(1 : ℚ), 2, 4] 3 (1 / 20) = Except.ok r ∧
      r.vB = JsNum.nan ∧ ∀ q : ℚ, ¬(0 ≤ q ∧ r.vB = jN q) := by
  obtain ⟨r, hr, hvB, -⟩ := varianceWith_single_level_nan (fun v => v)
    (fun _ df => df) true (7 : ℕ) [(1 : ℚ), 2, 4] 3 (1 / 20) (by simp)
  refine ⟨r, ?_, hvB, ?_⟩
  · simpa [OneFactorVarianceAnalysis.calculateA, List.replicate] using hr
  · rintro q ⟨-, hq⟩
    rw [hvB] at hq
    exact JsNum.noConfusion hq

/-- C4 witness: a two-level balanced one-factor input and a 2x2x2
balanced nested input, both satisfying the non-degeneracy hypotheses. -/
theorem claim4_witness :
    (∃ r, OneFactorVarianceAnalysis.calculateA (fun v => v) (fun _ df => df)
        [(0 : ℕ), 0, 1, 1] [(1 : ℚ), 2, 3, 5] 2 (1 / 20) = Except.ok r ∧
      (∃ q, 0 ≤ q ∧ r.vE = jN q) ∧ (∃ q, 0 ≤ q ∧ r.vB = jN q)) ∧
    (∃ r, TwoFactorVarianceAnalysis.calculate (fun v => v) (fun _ df => df)
        [(0 : ℕ), 0, 0, 0, 1, 1, 1, 1] [(0 : ℕ), 0, 1, 1, 0, 0, 1, 1]
        [(1 : ℚ), 2, 3, 4, 5, 6, 7, 8] (1 / 20) = Except.ok r ∧
      (∃ q, 0 ≤ q ∧ r.vE = jN q) ∧ (∃ q, 0 ≤ q ∧ r.vB = jN q) ∧
      (∃ q, 0 ≤ q ∧ r.vA = jN q) ∧ (∃ q, 0 ≤ q ∧ r.vT = jN q)) :=
  ⟨claim4_components_nonneg_nondegenerate.1 ℕ (fun v => v) (fun _ df => df)
      [0, 0, 1, 1] [1, 2, 3, 5] 2 (1 / 20) rfl
      (by norm_num [buildDict, addToGroup])
      (by norm_num [buildDict, addToGroup]),
    claim4_components_nonneg_nondegenerate.2 ℕ ℕ (fun v => v) (fun _ df => df)
      [0, 0, 0, 0, 1, 1, 1, 1] [0, 0, 1, 1, 0, 0, 1, 1]
      [1, 2, 3, 4, 5, 6, 7, 8] (1 / 20) rfl rfl
      (by norm_num [buildNestedDict, addToGroup2, addToGroup,
        TwoFactorNestedAnova.maxRuns, TwoFactorNestedAnova.maxReps])
      (by norm_num [buildNestedDict, addToGroup2, addToGroup])
      (by norm_num [buildNestedDict, addToGroup2, addToGroup,
        TwoFactorNestedAnova.dfBOf])
      (by norm_num [buildNestedDict, addToGroup2, addToGroup,
        TwoFactorNestedAnova.dfEOf, TwoFactorNestedAnova.allCells])⟩

namespace PassingBablokRegression

theorem calcDiff_self (a : ℝ) : calcDiff a a = 0 := by
  rw [calcDiff]
  split_ifs <;> simp

theorem calcDiff_eval (a b : ℝ) (hb : 0 ≤ b) (hba : b ≤ a)
    (h : (1 / 10 ^ 12) * ((a + b) / 2) ≤ a - b) : calcDiff a b = a - b := by
  rw [calcDiff, abs_of_nonneg (sub_nonneg.mpr hba),
    abs_of_nonneg (le_trans hb hba), abs_of_nonneg hb, if_neg (not_lt.mpr h)]

theorem paba_matrix_example :
    matrixOf true [0, 1, 2] [0, 1, 4] =
      [500, Real.arctan 1, Real.arctan 2, 500, 500, Real.arctan 3,
        500, 500, 500] := by
  have c10 := calcDiff_eval 1 0 (by norm_num) (by norm_num) (by norm_num)
  have c20 := calcDiff_eval 2 0 (by norm_num) (by norm_num) (by norm_num)
  have c40 := calcDiff_eval 4 0 (by norm_num) (by norm_num) (by norm_num)
  have c21 := calcDiff_eval 2 1 (by norm_num) (by norm_num) (by norm_num)
  have c41 := calcDiff_eval 4 1 (by norm_num) (by norm_num) (by norm_num)
  norm_num at c10 c20 c40 c21 c41
  norm_num [matrixOf, List.range_succ, angleEntry, c10, c20, c40, c21, c41,
    calcDiff_self]

theorem paba_counts_example :
    nAllOf [500, Real.arctan 1, Real.arctan 2, 500, 500, Real.arctan 3,
        500, 500, 500] = 3 ∧
    nNegOf [500, Real.arctan 1, Real.arctan 2, 500, 500, Real.arctan 3,
        500, 500, 500] = 0 ∧
    nNeg2Of [500, Real.arctan 1, Real.arctan 2, 500, 500, Real.arctan 3,
        500, 500, 500] = 0 ∧
    nPosOf [500, Real.arctan 1, Real.arctan 2, 500, 500, Real.arctan 3,
        500, 500, 500] = 3 ∧
    nPos2Of [500, Real.arctan 1, Real.arctan 2, 500, 500, Real.arctan 3,
        500, 500, 500] = 2 := by
  have hpi : π < 3.15 := Real.pi_lt_d2
  have h1eq : Real.arctan 1 = π / 4 := Real.arctan_one
  have h12 : Real.arctan 1 < Real.arctan 2 :=
    Real.arctan_strictMono (by norm_num)
  have h23 : Real.arctan 2 < Real.arctan 3 :=
    Real.arctan_strictMono (by norm_num)
  have h1lt : Real.arctan 1 < 500 :=
    lt_trans (Real.arctan_lt_pi_div_two 1) (by linarith)
  have h2lt : Real.arctan 2 < 500 :=
    lt_trans (Real.arctan_lt_pi_div_two 2) (by linarith)
  have h3lt : Real.arctan 3 < 500 :=
    lt_trans (Real.arctan_lt_pi_div_two 3) (by linarith)
  have hpi4 : (0 : ℝ) < π / 4 := by linarith [Real.pi_pos]
  have h1neg : ¬(Real.arctan 1 ≤ -(π / 4)) := by rw [h1eq]; linarith
  have h2neg : ¬(Real.arctan 2 ≤ -(π / 4)) := by
    rw [h1eq] at h12; linarith
  have h3neg : ¬(Real.arctan 3 ≤ -(π / 4)) := by
    rw [h1eq] at h12; linarith
  have h1pos : π / 4 ≤ Real.arctan 1 := le_of_eq h1eq.symm
  have h2pos : π / 4 < Real.arctan 2 := by rw [h1eq] at h12; linarith
  have h3pos : π / 4 < Real.arctan 3 := by rw [h1eq] at h12; linarith
  have h1pos2 : ¬(π / 4 < Real.arctan 1) := by rw [h1eq]; exact lt_irrefl _
  have hq : (π / 4 : ℝ) < 500 := by linarith
  have hn1 : ¬((π / 4 : ℝ) ≤ -(π / 4)) := by linarith
  have hn2 : ¬((π / 4 : ℝ) < -(π / 4)) := by linarith
  have h2neg2 : ¬(Real.arctan 2 < -(π / 4)) := fun h => h2neg (le_of_lt h)
  have h3neg2 : ¬(Real.arctan 3 < -(π / 4)) := fun h => h3neg (le_of_lt h)
  refine ⟨?_, ?_, ?_, ?_, ?_⟩ <;>
    simp [nAllOf, nNegOf, nNeg2Of, nPosOf, nPos2Of, List.countP_cons,
      decide_eq_true_eq, h1lt, h2lt, h3lt, h1neg, h2neg, h3neg,
      h1pos, h2pos, h3pos, h1pos2, hq, hn1, hn2, h2neg2, h3neg2,
      le_of_lt h2pos, le_of_lt h3pos]

theorem paba_sort_example :
    sortAsc [500, Real.arctan 1, Real.arctan 2, 500, 500, Real.arctan 3,
        500, 500, 500] =
      [Real.arctan 1, Real.arctan 2, Real.arctan 3,
        500, 500, 500, 500, 500, 500] := by
  have hpi : π < 3.15 := Real.pi_lt_d2
  have h1eq : Real.arctan 1 = π / 4 := Real.arctan_one
  have h12 : Real.arctan 1 < Real.arctan 2 :=
    Real.arctan_strictMono (by norm_num)
  have h23 : Real.arctan 2 < Real.arctan 3 :=
    Real.arctan_strictMono (by norm_num)
  have h3lt : Real.arctan 3 < 500 :=
    lt_trans (Real.arctan_lt_pi_div_two 3) (by linarith)
  have h2lt : Real.arctan 2 < 500 := lt_trans h23 h3lt
  have h12le : Real.arctan 1 ≤ Real.arctan 2 := le_of_lt h12
  have h23le : Real.arctan 2 ≤ Real.arctan 3 := le_of_lt h23
  have h3le : Real.arctan 3 ≤ 500 := le_of_lt h3lt
  have hn1 : ¬((500 : ℝ) ≤ Real.arctan 1) := by rw [h1eq]; linarith
  have hn2 : ¬((500 : ℝ) ≤ Real.arctan 2) := not_le_of_lt h2lt
  have hn3 : ¬((500 : ℝ) ≤ Real.arctan 3) := not_le_of_lt h3lt
  rw [h1eq] at h12le hn1 ⊢
  simp [sortAsc, insertA, h12le, h23le, h3le, hn1, hn2, hn3]

theorem paba_shift_example :
    shiftArr [0, 1, 2] [0, 1, 4] 2 = [0, -1, 0] := by
  norm_num [shiftArr, List.zip_cons_cons]

theorem paba_median_example :
    medianSpec (shiftArr [0, 1, 2] [0, 1, 4] 2) = 0 := by
  rw [paba_shift_example]
  have hs : sortAsc [(0 : ℝ), -1, 0] = [-1, 0, 0] := by
    norm_num [sortAsc, insertA]
  simp [medianSpec, hs]

theorem paba_example_slope (z : ℝ) :
    (calculatePaBa true z [0, 1, 2] [0, 1, 4]).slope = jN 2 := by
  obtain ⟨hall, hneg, hneg2, hpos, hpos2⟩ := paba_counts_example
  simp only [calculatePaBa, paba_matrix_example, hall, hneg, hneg2,
    paba_sort_example]
  norm_num [jsGet, JsNum.tanJ, Real.tan_arctan, Int.fdiv]

theorem paba_example_intercept (z : ℝ) :
    (calculatePaBa true z [0, 1, 2] [0, 1, 4]).intercept = jN (-1) := by
  obtain ⟨hall, hneg, hneg2, hpos, hpos2⟩ := paba_counts_example
  have hs : sortAsc [(0 : ℝ), -1, 0] = [-1, 0, 0] := by
    norm_num [sortAsc, insertA]
  simp only [calculatePaBa, paba_matrix_example, hall, hneg, hneg2,
    paba_sort_example]
  norm_num [jsGet, JsNum.tanJ, Real.tan_arctan, Int.fdiv, interceptOf,
    paba_shift_example, medianLowJ, hs]

end PassingBablokRegression


/-- C2: false of the code for odd n.  The intercept selection indexes
the sorted shifted array at floor(n/2) - 1, one position below the
median, whenever n is odd (for even n the two averaged positions are
correct).  On x = [0, 1, 2], y = [0, 1, 4] the slope evaluates to 2,
the shifted values y_i - 2 x_i are [0, -1, 0] whose median is 0, yet
calculate returns intercept -1 — the minimum, not the median — for
every value of the external normal quantile. -/
theorem claim2_intercept_misses_median_for_odd_n (z : ℝ) :
    (PassingBablokRegression.calculate true z [0, 1, 2] [0, 1, 4]).slope =
      jN 2 ∧
    (PassingBablokRegression.calculate true z [0, 1, 2] [0, 1, 4]).intercept =
      jN (-1) ∧
    PassingBablokRegression.medianSpec
      (PassingBablokRegression.shiftArr [0, 1, 2] [0, 1, 4] 2) = 0 ∧
    (PassingBablokRegression.calculate true z [0, 1, 2] [0, 1, 4]).intercept ≠
      jN (PassingBablokRegression.medianSpec
        (PassingBablokRegression.shiftArr [0, 1, 2] [0, 1, 4] 2)) := by
  refine ⟨PassingBablokRegression.paba_example_slope z,
    PassingBablokRegression.paba_example_intercept z,
    PassingBablokRegression.paba_median_example, ?_⟩
  simp only [PassingBablokRegression.calculate]
  rw [PassingBablokRegression.paba_example_intercept z,
    PassingBablokRegression.paba_median_example]
  intro h
  have := JsNum.num.inj h
  norm_num at this

/-- C8: PassingBablokRegression.calculate performs no input validation
at all: on any equal-length input containing a negative value — which
the Deming-family validator rejects with the negative-value error — it
still computes a RegressionModel. -/
theorem claim8_no_negative_value_check :
    ∀ (pc : Bool) (z : ℝ) (x y : List ℝ), x.length = y.length →
      (∃ v ∈ x, v < 0) →
      DemingRegression.validate 1 x y =
        some InputValidationError.negativeValue ∧
      ∃ m, PassingBablokRegression.calculate pc z x y = m := by
  intro pc z x y hlen hneg
  obtain ⟨v, hv, hvlt⟩ := hneg
  refine ⟨?_, _, rfl⟩
  have hx0 : x.length ≠ 0 := by
    intro h
    rw [List.length_eq_zero] at h
    rw [h] at hv
    exact List.not_mem_nil v hv
  have h1 : ¬(x.length ≠ y.length ∨ x.length = 0) := by
    push_neg
    exact ⟨hlen, hx0⟩
  have h3 : ((x.any fun w => decide (w < 0)) ||
      (y.any fun w => decide (w < 0))) = true := by
    have hx : (x.any fun w => decide (w < 0)) = true := by
      rw [List.any_eq_true]
      exact ⟨v, hv, by simpa using hvlt⟩
    simp [hx]
  rw [DemingRegression.validate, if_neg h1, if_neg (by norm_num), if_pos h3]

/-- C8 witness: x = [-1, 1] contains a negative value; Deming
validation rejects it while the Passing-Bablok estimator returns a
model. -/
theorem claim8_witness :
    ([(-1 : ℝ), 1]).length = ([(1 : ℝ), 2]).length ∧
    (∃ v ∈ [(-1 : ℝ), 1], v < 0) ∧
    (DemingRegression.validate 1 [(-1 : ℝ), 1] [(1 : ℝ), 2] =
        some InputValidationError.negativeValue ∧
      ∃ m, PassingBablokRegression.calculate true 0 [(-1 : ℝ), 1]
          [(1 : ℝ), 2] = m) :=
  ⟨rfl, ⟨-1, by norm_num⟩,
    claim8_no_negative_value_check true 0 [(-1 : ℝ), 1] [(1 : ℝ), 2] rfl
      ⟨-1, by norm_num⟩⟩

namespace PassingBablokRegression

theorem insertA_eq_orderedInsert (a : ℝ) (l : List ℝ) :
    insertA a l = List.orderedInsert (· ≤ ·) a l := by
  induction l with
  | nil => rfl
  | cons b t ih => simp only [insertA, List.orderedInsert, ih]

theorem sortAsc_eq_insertionSort (l : List ℝ) :
    sortAsc l = List.insertionSort (· ≤ ·) l := by
  induction l with
  | nil => rfl
  | cons a t ih =>
      simp only [sortAsc, List.foldr_cons, List.insertionSort]
      rw [← ih]
      exact insertA_eq_orderedInsert a (sortAsc t)

theorem sortAsc_idem (l : List ℝ) : sortAsc (sortAsc l) = sortAsc l := by
  rw [sortAsc_eq_insertionSort, sortAsc_eq_insertionSort]
  exact List.Sorted.insertionSort_eq (List.sorted_insertionSort _ l)

theorem sortAsc_length (l : List ℝ) : (sortAsc l).length = l.length := by
  rw [sortAsc_eq_insertionSort]
  exact (List.perm_insertionSort _ l).length_eq

end PassingBablokRegression


/-- C5: JackknifeConfidenceInterval.calculate throws exactly when
n <= 2; for n > 2 it returns the global estimate, per-coefficient
standard errors by Linnet's formula over the n leave-one-out
estimates, and confidence limits using the Student-t quantile at
1 - alpha/2 with n - 2 degrees of freedom. -/
theorem claim5_jackknife_exact :
    ∀ (est : List ℝ → List ℝ → JsNum ℝ × JsNum ℝ) (tInv : ℝ → ℕ → ℝ)
      (alpha : ℝ) (x y : List ℝ),
      ((∃ e, JackknifeConfidenceInterval.calculate est tInv alpha x y =
          Except.error e) ↔ x.length ≤ 2) ∧
      (2 < x.length →
        ∃ r, JackknifeConfidenceInterval.calculate est tInv alpha x y =
            Except.ok r ∧
          r.slope = (est x y).1 ∧ r.intercept = (est x y).2 ∧
          r.slopeSE = JackknifeConfidenceInterval.linnetSESpec
            ((List.range x.length).map
              (fun i => (est (x.eraseIdx i) (y.eraseIdx i)).1))
            (est x y).1 x.length ∧
          r.interceptSE = JackknifeConfidenceInterval.linnetSESpec
            ((List.range x.length).map
              (fun i => (est (x.eraseIdx i) (y.eraseIdx i)).2))
            (est x y).2 x.length ∧
          r.slopeLCL = jSub (est x y).1
            (jMul (jN (tInv (1 - alpha / 2) (x.length - 2))) r.slopeSE) ∧
          r.slopeUCL = jAdd (est x y).1
            (jMul (jN (tInv (1 - alpha / 2) (x.length - 2))) r.slopeSE) ∧
          r.interceptLCL = jSub (est x y).2
            (jMul (jN (tInv (1 - alpha / 2) (x.length - 2))) r.interceptSE) ∧
          r.interceptUCL = jAdd (est x y).2
            (jMul (jN (tInv (1 - alpha / 2) (x.length - 2))) r.interceptSE)) := by
  intro est tInv alpha x y
  constructor
  · by_cases h : x.length - 1 ≤ 1
    · refine iff_of_true ⟨"Sample size must be greater than 2", ?_⟩ (by omega)
      simp [JackknifeConfidenceInterval.calculate, h]
    · refine iff_of_false ?_ (by omega)
      rintro ⟨e, he⟩
      simp [JackknifeConfidenceInterval.calculate, h] at he
  · intro h
    have h1 : ¬(x.length - 1 ≤ 1) := by omega
    have hdf : x.length - 1 - 1 = x.length - 2 := by omega
    have hse1 : JackknifeConfidenceInterval.linnetSE
        ((List.range x.length).map
          (fun i => (est (x.eraseIdx i) (y.eraseIdx i)).1)) (est x y).1 =
        JackknifeConfidenceInterval.linnetSESpec
          ((List.range x.length).map
            (fun i => (est (x.eraseIdx i) (y.eraseIdx i)).1))
          (est x y).1 x.length := by
      simp [JackknifeConfidenceInterval.linnetSE,
        JackknifeConfidenceInterval.linnetSESpec]
    have hse0 : JackknifeConfidenceInterval.linnetSE
        ((List.range x.length).map
          (fun i => (est (x.eraseIdx i) (y.eraseIdx i)).2)) (est x y).2 =
        JackknifeConfidenceInterval.linnetSESpec
          ((List.range x.length).map
            (fun i => (est (x.eraseIdx i) (y.eraseIdx i)).2))
          (est x y).2 x.length := by
      simp [JackknifeConfidenceInterval.linnetSE,
        JackknifeConfidenceInterval.linnetSESpec]
    have hr : JackknifeConfidenceInterval.calculate est tInv alpha x y =
        Except.ok
          { slope := (est x y).1, intercept := (est x y).2,
            slopeSE := JackknifeConfidenceInterval.linnetSE
              ((List.range x.length).map
                (fun i => (est (x.eraseIdx i) (y.eraseIdx i)).1)) (est x y).1,
            interceptSE := JackknifeConfidenceInterval.linnetSE
              ((List.range x.length).map
                (fun i => (est (x.eraseIdx i) (y.eraseIdx i)).2)) (est x y).2,
            slopeLCL := jSub (est x y).1
              (jMul (jN (tInv (1 - alpha / 2) (x.length - 1 - 1)))
                (JackknifeConfidenceInterval.linnetSE
                  ((List.range x.length).map
                    (fun i => (est (x.eraseIdx i) (y.eraseIdx i)).1))
                  (est x y).1)),
            slopeUCL := jAdd (est x y).1
              (jMul (jN (tInv (1 - alpha / 2) (x.length - 1 - 1)))
                (JackknifeConfidenceInterval.linnetSE
                  ((List.range x.length).map
                    (fun i => (est (x.eraseIdx i) (y.eraseIdx i)).1))
                  (est x y).1)),
            interceptLCL := jSub (est x y).2
              (jMul (jN (tInv (1 - alpha / 2) (x.length - 1 - 1)))
                (JackknifeConfidenceInterval.linnetSE
                  ((List.range x.length).map
                    (fun i => (est (x.eraseIdx i) (y.eraseIdx i)).2))
                  (est x y).2)),
            interceptUCL := jAdd (est x y).2
              (jMul (jN (tInv (1 - alpha / 2) (x.length - 1 - 1)))
                (JackknifeConfidenceInterval.linnetSE
                  ((List.range x.length).map
                    (fun i => (est (x.eraseIdx i) (y.eraseIdx i)).2))
                  (est x y).2)) } := by
      simp only [JackknifeConfidenceInterval.calculate]
      rw [if_neg h1]
    refine ⟨_, hr, rfl, rfl, hse1, hse0, ?_, ?_, ?_, ?_⟩ <;>
      simp [hdf, hse1, hse0]

/-- C5 witness: x = [1, 2, 3] has n = 3 > 2; the sum estimator and a
constant t-quantile stand in for the wrapped regression and jstat. -/
theorem claim5_witness :
    2 < ([(1 : ℝ), 2, 3]).length ∧
    ∃ r, JackknifeConfidenceInterval.calculate
        (fun u v => (jN (u.sum + v.sum), jN u.sum)) (fun _ _ => 1) (1 / 20)
        [(1 : ℝ), 2, 3] [(4 : ℝ), 5, 6] = Except.ok r :=
  ⟨by norm_num,
    match (claim5_jackknife_exact (fun u v => (jN (u.sum + v.sum), jN u.sum))
        (fun _ _ => 1) (1 / 20) [(1 : ℝ), 2, 3] [(4 : ℝ), 5, 6]).2
        (by norm_num) with
    | ⟨r, hr, _⟩ => ⟨r, hr⟩⟩

/-- C6: corrected by the range restriction 0 <= alpha <= 2 (outside it
the local quantile function throws a RangeError instead).  Within the
range, any two random streams give the same slope and intercept — the
global estimate on the full data — the standard errors are NaN, and
the confidence limits are the linear-interpolated empirical quantiles
of the B resampled slopes and intercepts (NaN when B = 0, where the
quantile call returns undefined). -/
theorem claim6_bootstrap_draw_independent :
    ∀ (est : List ℝ → List ℝ → ℝ × ℝ) (r r2 : ℕ → ℕ → ℝ) (B : ℕ)
      (alpha : ℝ) (x y : List ℝ), 0 ≤ alpha → alpha ≤ 2 →
      ∃ ci ci2, BootstrapConfidenceInterval.calculate est r B alpha x y =
          Except.ok ci ∧
        BootstrapConfidenceInterval.calculate est r2 B alpha x y =
          Except.ok ci2 ∧
        ci.slope = jN (est x y).1 ∧ ci2.slope = jN (est x y).1 ∧
        ci.intercept = jN (est x y).2 ∧ ci2.intercept = jN (est x y).2 ∧
        ci.slopeSE = JsNum.nan ∧ ci.interceptSE = JsNum.nan ∧
        (B = 0 → ci.slopeLCL = JsNum.nan ∧ ci.slopeUCL = JsNum.nan ∧
          ci.interceptLCL = JsNum.nan ∧ ci.interceptUCL = JsNum.nan) ∧
        (0 < B →
          ci.slopeLCL = jN (BootstrapConfidenceInterval.getQuantile
            (PassingBablokRegression.sortAsc
              (BootstrapConfidenceInterval.resampleSlopes est r B x y))
            B (alpha / 2)) ∧
          ci.slopeUCL = jN (BootstrapConfidenceInterval.getQuantile
            (PassingBablokRegression.sortAsc
              (BootstrapConfidenceInterval.resampleSlopes est r B x y))
            B (1 - alpha / 2)) ∧
          ci.interceptLCL = jN (BootstrapConfidenceInterval.getQuantile
            (PassingBablokRegression.sortAsc
              (BootstrapConfidenceInterval.resampleIntercepts est r B x y))
            B (alpha / 2)) ∧
          ci.interceptUCL = jN (BootstrapConfidenceInterval.getQuantile
            (PassingBablokRegression.sortAsc
              (BootstrapConfidenceInterval.resampleIntercepts est r B x y))
            B (1 - alpha / 2))) := by
  intro est r r2 B alpha x y h0 h2
  have hprobs : (([alpha / 2, 1 - alpha / 2]).any
      (fun q => decide (q < 0 ∨ 1 < q))) = false := by
    simp only [List.any_cons, List.any_nil, Bool.or_false, Bool.or_eq_false_iff,
      decide_eq_false_iff_not, not_or, not_lt]
    refine ⟨⟨by linarith, by linarith⟩, by linarith, by linarith⟩
  have main : ∀ (rr : ℕ → ℕ → ℝ),
      ∃ ci, BootstrapConfidenceInterval.calculate est rr B alpha x y =
          Except.ok ci ∧
        ci.slope = jN (est x y).1 ∧ ci.intercept = jN (est x y).2 ∧
        ci.slopeSE = JsNum.nan ∧ ci.interceptSE = JsNum.nan ∧
        (B = 0 → ci.slopeLCL = JsNum.nan ∧ ci.slopeUCL = JsNum.nan ∧
          ci.interceptLCL = JsNum.nan ∧ ci.interceptUCL = JsNum.nan) ∧
        (0 < B →
          ci.slopeLCL = jN (BootstrapConfidenceInterval.getQuantile
            (PassingBablokRegression.sortAsc
              (BootstrapConfidenceInterval.resampleSlopes est rr B x y))
            B (alpha / 2)) ∧
          ci.slopeUCL = jN (BootstrapConfidenceInterval.getQuantile
            (PassingBablokRegression.sortAsc
              (BootstrapConfidenceInterval.resampleSlopes est rr B x y))
            B (1 - alpha / 2)) ∧
          ci.interceptLCL = jN (BootstrapConfidenceInterval.getQuantile
            (PassingBablokRegression.sortAsc
              (BootstrapConfidenceInterval.resampleIntercepts est rr B x y))
            B (alpha / 2)) ∧
          ci.interceptUCL = jN (BootstrapConfidenceInterval.getQuantile
            (PassingBablokRegression.sortAsc
              (BootstrapConfidenceInterval.resampleIntercepts est rr B x y))
            B (1 - alpha / 2))) := by
    intro rr
    by_cases hB : B = 0
    · subst hB
      have hr : BootstrapConfidenceInterval.calculate est rr 0 alpha x y =
          Except.ok
            { slope := jN (est x y).1, intercept := jN (est x y).2,
              slopeSE := JsNum.nan, interceptSE := JsNum.nan,
              slopeLCL := JsNum.nan, slopeUCL := JsNum.nan,
              interceptLCL := JsNum.nan, interceptUCL := JsNum.nan } := by
        simp [BootstrapConfidenceInterval.calculate,
          BootstrapConfidenceInterval.quantile,
          BootstrapConfidenceInterval.resampleSlopes,
          BootstrapConfidenceInterval.resampleIntercepts,
          PassingBablokRegression.sortAsc]
      exact ⟨_, hr, rfl, rfl, rfl, rfl, fun _ => ⟨rfl, rfl, rfl, rfl⟩,
        fun hc => absurd hc (lt_irrefl 0)⟩
    · have hlen1 : (BootstrapConfidenceInterval.resampleSlopes est rr B x y).length
          = B := by
        simp [BootstrapConfidenceInterval.resampleSlopes]
      have hlen0 : (BootstrapConfidenceInterval.resampleIntercepts est rr B x y).length
          = B := by
        simp [BootstrapConfidenceInterval.resampleIntercepts]
      have hq1 : BootstrapConfidenceInterval.quantile
          (PassingBablokRegression.sortAsc
            (BootstrapConfidenceInterval.resampleSlopes est rr B x y))
          [alpha / 2, 1 - alpha / 2] =
          Except.ok (some [BootstrapConfidenceInterval.getQuantile
              (PassingBablokRegression.sortAsc
                (BootstrapConfidenceInterval.resampleSlopes est rr B x y))
              B (alpha / 2),
            BootstrapConfidenceInterval.getQuantile
              (PassingBablokRegression.sortAsc
                (BootstrapConfidenceInterval.resampleSlopes est rr B x y))
              B (1 - alpha / 2)]) := by
        rw [BootstrapConfidenceInterval.quantile,
          if_neg (by simp [PassingBablokRegression.sortAsc_length, hlen1, hB]),
          if_neg (by rw [hprobs]; exact Bool.false_ne_true)]
        simp [PassingBablokRegression.sortAsc_idem,
          PassingBablokRegression.sortAsc_length, hlen1]
      have hq0 : BootstrapConfidenceInterval.quantile
          (PassingBablokRegression.sortAsc
            (BootstrapConfidenceInterval.resampleIntercepts est rr B x y))
          [alpha / 2, 1 - alpha / 2] =
          Except.ok (some [BootstrapConfidenceInterval.getQuantile
              (PassingBablokRegression.sortAsc
                (BootstrapConfidenceInterval.resampleIntercepts est rr B x y))
              B (alpha / 2),
            BootstrapConfidenceInterval.getQuantile
              (PassingBablokRegression.sortAsc
                (BootstrapConfidenceInterval.resampleIntercepts est rr B x y))
              B (1 - alpha / 2)]) := by
        rw [BootstrapConfidenceInterval.quantile,
          if_neg (by simp [PassingBablokRegression.sortAsc_length, hlen0, hB]),
          if_neg (by rw [hprobs]; exact Bool.false_ne_true)]
        simp [PassingBablokRegression.sortAsc_idem,
          PassingBablokRegression.sortAsc_length, hlen0]
      have hr : BootstrapConfidenceInterval.calculate est rr B alpha x y =
          Except.ok
            { slope := jN (est x y).1, intercept := jN (est x y).2,
              slopeSE := JsNum.nan, interceptSE := JsNum.nan,
              slopeLCL := jN (BootstrapConfidenceInterval.getQuantile
                (PassingBablokRegression.sortAsc
                  (BootstrapConfidenceInterval.resampleSlopes est rr B x y))
                B (alpha / 2)),
              slopeUCL := jN (BootstrapConfidenceInterval.getQuantile
                (PassingBablokRegression.sortAsc
                  (BootstrapConfidenceInterval.resampleSlopes est rr B x y))
                B (1 - alpha / 2)),
              interceptLCL := jN (BootstrapConfidenceInterval.getQuantile
                (PassingBablokRegression.sortAsc
                  (BootstrapConfidenceInterval.resampleIntercepts est rr B x y))
                B (alpha / 2)),
              interceptUCL := jN (BootstrapConfidenceInterval.getQuantile
                (PassingBablokRegression.sortAsc
                  (BootstrapConfidenceInterval.resampleIntercepts est rr B x y))
                B (1 - alpha / 2)) } := by
        simp only [BootstrapConfidenceInterval.calculate, hq1, hq0]
        simp
      exact ⟨_, hr, rfl, rfl, rfl, rfl,
        fun hc => absurd hc hB, fun _ => ⟨rfl, rfl, rfl, rfl⟩⟩
  obtain ⟨ci, hci, hs, hi, hse, hie, hz, hp⟩ := main r
  obtain ⟨ci2, hci2, hs2, hi2, -, -, -, -⟩ := main r2
  exact ⟨ci, ci2, hci, hci2, hs, hs2, hi, hi2, hse, hie, hz, hp⟩

/-- C6 counterexample: with alpha = 3 (so alpha/2 is outside [0, 1])
and one bootstrap draw, calculate propagates the RangeError of the
quantile function instead of returning a result, so the claim's
universal quantification over alpha is false. -/
theorem claim6_alpha_out_of_range_throws :
    BootstrapConfidenceInterval.calculate (fun _ _ => (0, 0)) (fun _ _ => 0)
      1 3 [1] [1] = Except.error "Quantiles must be between 0 and 1" := by
  have hrs : BootstrapConfidenceInterval.resampleSlopes (fun _ _ => (0, 0))
      (fun _ _ => 0) 1 [1] [1] = [0] := by
    simp [BootstrapConfidenceInterval.resampleSlopes, List.range_succ]
  have hq : BootstrapConfidenceInterval.quantile
      (PassingBablokRegression.sortAsc [(0 : ℝ)]) [(3 : ℝ) / 2, 1 - 3 / 2] =
      Except.error "Quantiles must be between 0 and 1" := by
    rw [BootstrapConfidenceInterval.quantile]
    rw [if_neg (by norm_num [PassingBablokRegression.sortAsc,
      PassingBablokRegression.insertA])]
    rw [if_pos]
    simp only [List.any_cons, List.any_nil, Bool.or_false, Bool.or_eq_true,
      decide_eq_true_eq]
    left
    right
    norm_num
  simp only [BootstrapConfidenceInterval.calculate, hrs, hq]

/-- C6 witness: a two-point data set, five draws, two different random
streams, alpha = 1/20 inside [0, 2]. -/
theorem claim6_witness :
    ∃ ci, BootstrapConfidenceInterval.calculate
        (fun u v => (v.sum - u.sum, u.sum)) (fun _ _ => 0) 5 (1 / 20)
        [(1 : ℝ), 2] [(3 : ℝ), 4] = Except.ok ci ∧
      ci.slope = jN ((([(3 : ℝ), 4]).sum - ([(1 : ℝ), 2]).sum)) := by
  obtain ⟨ci, ci2, hci, hci2, hs, hs2, hrest⟩ :=
    claim6_bootstrap_draw_independent (fun u v => (v.sum - u.sum, u.sum))
      (fun _ _ => 0) (fun _ _ => 1 / 2) 5 (1 / 20) [(1 : ℝ), 2] [(3 : ℝ), 4]
      (by norm_num) (by norm_num)
  exact ⟨ci, hci, hs⟩

